import Mathlib

/-!
Verification development for the Sherpa viewport/timeline-to-section mapping
engine. The definitions below are shallow embeddings of the JavaScript
functions of the repository (content script and popup script): section
mapping (parsePageForMapping), navigation (navigateToSection), the viewport
locator (extractCurrentSectionContent), the visibility geometry engine
(extractViewportImages), section text extraction (extractSectionText) and
the timeline synchronizer (parseTimeToSeconds, handleAudioTimeUpdate,
playImmersiveSummary). JavaScript numbers are modelled as rationals where
fractional values can occur and NaN-producing integer parsing is modelled
with Option Int (none standing for NaN). Strings are modelled through their
character lists so that every operation is kernel-computable.
-/

namespace Sherpa

/-! ### String helpers (kernel-computable models of the JS string methods) -/

/-- Model of the JavaScript String.prototype.trim: drop whitespace from both
ends. -/
def jsTrim (s : String) : String :=
  ⟨((s.data.dropWhile Char.isWhitespace).reverse.dropWhile Char.isWhitespace).reverse⟩

/-- Model of the JavaScript String.prototype.toLowerCase (ASCII letters, which
is all the source ever compares). -/
def jsToLower (s : String) : String :=
  ⟨s.data.map Char.toLower⟩

/-- Model of the JavaScript String.prototype.startsWith. -/
def strStartsWith (s t : String) : Bool :=
  t.data.isPrefixOf s.data

/-- Model of the JavaScript String.prototype.includes (substring test). -/
def strIncludes (s t : String) : Bool :=
  (List.range (s.data.length + 1)).any (fun k => t.data.isPrefixOf (s.data.drop k))

/-- Model of the JavaScript String.prototype.substring(0, n). -/
def strTake (s : String) (n : Nat) : String :=
  ⟨s.data.take n⟩

/-- Split a character list at every occurrence of the separator, the model of
the JavaScript String.prototype.split with a one-character separator. -/
def splitOnCharList (sep : Char) : List Char → List (List Char)
  | [] => [[]]
  | c :: rest =>
    let r := splitOnCharList sep rest
    if c = sep then [] :: r
    else
      match r with
      | [] => [[c]]
      | h :: t => (c :: h) :: t

/-- String-level wrapper for splitOnCharList. -/
def splitOnChar (sep : Char) (s : String) : List String :=
  (splitOnCharList sep s.data).map String.mk

/-- Little-endian decimal digits of a natural number, fuel-driven so that the
kernel can evaluate it. -/
def toDigitsRev (fuel n : Nat) : List Nat :=
  match fuel with
  | 0 => []
  | fuel + 1 => if n = 0 then [] else (n % 10) :: toDigitsRev fuel (n / 10)

/-- Decimal rendering of a natural number, the model of the JavaScript
template-literal interpolation of a counter. -/
def natRepr (n : Nat) : String :=
  if n = 0 then "0" else ⟨((toDigitsRev (n + 1) n).reverse.map Nat.digitChar)⟩

/-! ### Timeline synchronizer: parseTimeToSeconds (popup script)

JavaScript parseInt with radix 10 returns NaN when no leading digits exist;
NaN is modelled as none. Arithmetic on parsed parts propagates NaN exactly
as JavaScript number arithmetic does. -/

/-- Model of parseInt(p, 10): optional leading whitespace, optional sign,
then the maximal run of decimal digits; none models NaN. -/
def jsParseInt (s : String) : Option Int :=
  let l := s.data.dropWhile Char.isWhitespace
  let (sign, l2) : Int × List Char :=
    match l with
    | '-' :: rest => (-1, rest)
    | '+' :: rest => (1, rest)
    | _ => (1, l)
  let digits := l2.takeWhile Char.isDigit
  if digits.isEmpty then none
  else some (sign * (digits.foldl (fun a c => a * 10 + ((c.toNat - '0'.toNat : Nat) : Int)) 0))

/-- NaN-propagating multiplication of a parsed part by a constant. -/
def nanMul (a : Option Int) (k : Int) : Option Int :=
  a.map (· * k)

/-- NaN-propagating addition of parsed parts. -/
def nanAdd (a b : Option Int) : Option Int :=
  match a, b with
  | some x, some y => some (x + y)
  | _, _ => none

/-- Model of parseTimeToSeconds from the popup script: an empty string gives
0, a two-part "MM:SS" string gives parts[0]*60 + parts[1], a three-part
"HH:MM:SS" string gives parts[0]*3600 + parts[1]*60 + parts[2], and any
other number of colon-separated parts gives 0. none models the JavaScript
NaN that non-numeric parts produce. -/
def parseTimeToSeconds (timeString : String) : Option Int :=
  if timeString = "" then some 0
  else
    let parts := (splitOnChar ':' timeString).map jsParseInt
    match parts with
    | [a, b] => nanAdd (nanMul a 60) b
    | [a, b, c] => nanAdd (nanAdd (nanMul a 3600) (nanMul b 60)) c
    | _ => some 0

/-! ### Section model (shared by the mapper and the synchronizer) -/

/-- A navigable section as emitted by parsePageForMapping. -/
structure Section where
  id : String
  label : String
  role : String
  level : Option String
  type : String
deriving Repr, DecidableEq

/-- Model of findMatchingSectionId from the popup script: exact
case-insensitive label match first, then case-insensitive substring
containment in either direction, else none. -/
def findMatchingSectionId (sections : List Section) (sectionName : String) : Option String :=
  match sections.find? (fun s => jsToLower s.label = jsToLower sectionName) with
  | some s => some s.id
  | none =>
    match sections.find? (fun s =>
        strIncludes (jsToLower s.label) (jsToLower sectionName) ||
        strIncludes (jsToLower sectionName) (jsToLower s.label)) with
    | some s => some s.id
    | none => none

/-! ### Playback segments and the audio tick handler (popup script) -/

/-- One entry of immersivePlaybackTimes: a parsed playback segment. The time
is the parseTimeToSeconds result (none models NaN). -/
structure Segment where
  name : String
  time : Option Int
  sectionId : Option String
deriving Repr, DecidableEq

/-- JavaScript comparison currentTime >= section.time, false when the parsed
time is NaN, with the audio clock as a rational. -/
def timeLe (segTime : Option Int) (t : ℚ) : Bool :=
  match segTime with
  | some x => decide ((x : ℚ) ≤ t)
  | none => false

/-- JavaScript comparison currentTime < nextSection.time, false when the
parsed time is NaN. -/
def timeGt (segTime : Option Int) (t : ℚ) : Bool :=
  match segTime with
  | some x => decide (t < (x : ℚ))
  | none => false

/-- The scan loop of handleAudioTimeUpdate, fuel-driven: starting at index
i, find the first index whose segment contains currentTime (its start time
at or before currentTime and the next start time, if any, after it) and
differs from the cursor; the cursor is returned unchanged when no such
index exists before the list ends. -/
def scanForSectionAux (segs : List Segment) (t : ℚ) (cursor : Nat) : Nat → Nat → Nat
  | 0, _ => cursor
  | fuel + 1, i =>
    match segs[i]? with
    | none => cursor
    | some s =>
      let inThis := timeLe s.time t &&
        (match segs[i + 1]? with
         | none => true
         | some nxt => timeGt nxt.time t)
      if inThis && i ≠ cursor then i
      else scanForSectionAux segs t cursor fuel (i + 1)

/-- The scan of handleAudioTimeUpdate from index i, with enough fuel to
reach the end of the segment list. -/
def scanForSection (segs : List Segment) (t : ℚ) (cursor : Nat) (i : Nat) : Nat :=
  scanForSectionAux segs t cursor (segs.length - i) i

/-- Model of handleAudioTimeUpdate: with a non-empty segment list the cursor
is advanced by scanning forward from its current value; an empty list leaves
it untouched. Returns the new cursor. -/
def handleAudioTimeUpdate (segs : List Segment) (cursor : Nat) (t : ℚ) : Nat :=
  if segs.isEmpty then cursor
  else scanForSection segs t cursor cursor

/-- Stable insertion of an element after every element it does not strictly
precede, the building block of a stable sort. -/
def insertStable (le : Segment → Segment → Bool) (a : Segment) : List Segment → List Segment
  | [] => [a]
  | b :: rest => if le b a then b :: insertStable le a rest else a :: b :: rest

/-- A stable sort, the model of the JavaScript Array.prototype.sort (stable
per the language specification). -/
def stableSort (le : Segment → Segment → Bool) (l : List Segment) : List Segment :=
  l.foldl (fun acc a => insertStable le a acc) []

/-- Model of the segment construction in startPollingForImmersiveSummary:
map the transcript payload through parseTimeToSeconds and
findMatchingSectionId, then sort ascending by parsed time (the JavaScript
numeric comparator a.time - b.time; comparisons involving NaN keep the
relative order). -/
def mkSegments (sections : List Section) (payload : List (String × String)) : List Segment :=
  let mapped := payload.map (fun p =>
    { name := p.1
      time := parseTimeToSeconds p.2
      sectionId := findMatchingSectionId sections p.1 : Segment })
  stableSort (fun a b =>
    match a.time, b.time with
    | some x, some y => decide (x ≤ y)
    | _, _ => true) mapped

/-- Model of the cursor reset in playImmersiveSummary: when playback starts
from the very beginning (currentTime equals 0) the section cursor is reset
to 0, otherwise it is kept. -/
def resetCursorOnPlay (cursor : Nat) (currentTime : ℚ) : Nat :=
  if currentTime = 0 then 0 else cursor

/-! ### Viewport locator (extractCurrentSectionContent, content script)

Screen geometry is modelled with rationals; a heading is represented by its
document-top offset headingTop = boundingRect.top + scrollY. -/

/-- The first scan of extractCurrentSectionContent: walk the headings in
document order, skip those with headingTop < scrollY - 200 or
headingTop > scrollY + viewportHeight + 200, and keep the first heading
realizing the strictly smallest distance from the viewport top. Returns the
index of the best heading. -/
def findBestHeading (tops : List ℚ) (scrollY vh : ℚ) : Option Nat :=
  (tops.enum.foldl
    (fun (acc : Option (Nat × ℚ)) (p : Nat × ℚ) =>
      if p.2 < scrollY - 200 then acc
      else if p.2 > scrollY + vh + 200 then acc
      else
        let dist := |p.2 - scrollY|
        match acc with
        | none => some (p.1, dist)
        | some (j, best) => if dist < best then some (p.1, dist) else some (j, best))
    none).map Prod.fst

/-- The center-based fallback scan of extractCurrentSectionContent: the first
heading in document order with headingTop <= centerY and
headingTop > scrollY - 100. -/
def findCenterHeading (tops : List ℚ) (scrollY centerY : ℚ) : Option Nat :=
  (tops.enum.find? (fun p => decide (p.2 ≤ centerY) && decide (p.2 > scrollY - 100))).map Prod.fst

/-- The selection cascade of extractCurrentSectionContent. -/
inductive LocatorChoice where
  | heading (i : Nat)
  | centerHeading (i : Nat)
  | mainContent
  | body
deriving Repr, DecidableEq

/-- Model of the selection logic of extractCurrentSectionContent: nearest
heading to the viewport top, else the center-based scan, else the first
matching content container labelled Main Content, else document.body. -/
def locateCurrentSection (tops : List ℚ) (scrollY vh : ℚ) (hasMainContent : Bool) :
    LocatorChoice :=
  match findBestHeading tops scrollY vh with
  | some i => .heading i
  | none =>
    match findCenterHeading tops scrollY (scrollY + vh / 2) with
    | some i => .centerHeading i
    | none => if hasMainContent then .mainContent else .body

/-! ### Visibility geometry engine (extractViewportImages, content script) -/

/-- A bounding client rectangle in viewport coordinates. -/
structure Rect where
  left : ℚ
  top : ℚ
  width : ℚ
  height : ℚ
deriving Repr, DecidableEq

/-- The inputs the pipeline reads from one img element. The context text and
section label that the source collects for survivors are textual metadata
with no influence on inclusion or on the visibility percentage and are not
modelled. -/
structure ImageInput where
  rect : Rect
  src : String
  dataSrc : Option String
  alt : String
deriving Repr, DecidableEq

/-- Model of JavaScript Math.round on a rational. -/
def jsRound (x : ℚ) : Int :=
  ⌊x + 1 / 2⌋

/-- The axis-aligned viewport intersection test of extractViewportImages. -/
def isInViewport (vw vh : ℚ) (r : Rect) : Bool :=
  decide (r.left < vw) && decide (r.top < vh) &&
  decide (r.left + r.width > 0) && decide (r.top + r.height > 0)

/-- The visibility percentage computation of extractViewportImages: clamped
intersection area over total area times 100, rounded, and 0 when the image
has zero rendered area. -/
def visibilityPercentage (vw vh : ℚ) (r : Rect) : Int :=
  let visibleLeft := max 0 r.left
  let visibleTop := max 0 r.top
  let visibleRight := min vw (r.left + r.width)
  let visibleBottom := min vh (r.top + r.height)
  let visibleArea := (visibleRight - visibleLeft) * (visibleBottom - visibleTop)
  let totalArea := r.width * r.height
  if totalArea > 0 then jsRound (visibleArea / totalArea * 100) else 0

/-- One record of the images array returned by extractViewportImages. -/
structure ImageData where
  src : String
  alt : String
  width : Int
  height : Int
  viewportX : Int
  viewportY : Int
  visibilityPercentage : Int
deriving Repr, DecidableEq

/-- Model of img.src followed by the data-src fallback, empty string when
both are missing. -/
def resolveSrc (img : ImageInput) : String :=
  if img.src ≠ "" then img.src
  else
    match img.dataSrc with
    | some d => d
    | none => ""

/-- The per-image pipeline of extractViewportImages: viewport intersection
test, visibility computation, minimum-size and minimum-visibility filters,
then the tracking-pixel source filter; none when the image is excluded. -/
def processImage (vw vh : ℚ) (img : ImageInput) : Option ImageData :=
  let r := img.rect
  if !isInViewport vw vh r then none
  else
    let pct := visibilityPercentage vw vh r
    if decide (r.width < 30) || decide (r.height < 30) || decide (pct < 10) then none
    else
      let src := resolveSrc img
      if src = "" || strIncludes src "data:image" || strIncludes src "pixel" then none
      else
        some { src := src, alt := img.alt,
               width := jsRound r.width, height := jsRound r.height,
               viewportX := jsRound r.left, viewportY := jsRound r.top,
               visibilityPercentage := pct }

/-- Model of extractViewportImages: every image is pushed through the
pipeline and the qualifying ones are returned in order. -/
def extractViewportImages (vw vh : ℚ) (imgs : List ImageInput) : List ImageData :=
  imgs.filterMap (processImage vw vh)

/-! ### Section text extraction (extractSectionText, content script)

The DOM subtree is modelled as a tree of text and element nodes. The
TreeWalker of the source visits the strict descendants of the root in
document order, rejects whole subtrees rooted at non-content tags, appends
trimmed text nodes longer than 2 characters followed by one space, and
appends one line-break character when visiting a block-level element (the
element is visited before its children). -/

/-- A DOM node: a text node or an element with children. -/
inductive DNode where
  | text (s : String)
  | elem (tag : String) (children : List DNode)
deriving Repr

/-- Tags whose subtrees the walker filter rejects. -/
def rejectedTag (t : String) : Bool :=
  t = "script" || t = "style" || t = "nav" || t = "footer" || t = "header" || t = "aside"

/-- Block-level tags after which the walker inserts a line break. -/
def blockTag (t : String) : Bool :=
  t = "p" || t = "div" || t = "h1" || t = "h2" || t = "h3" || t = "h4" ||
  t = "h5" || t = "h6" || t = "li" || t = "br"

/-- Lowercase heading tags h1 through h6. -/
def isHeadingTag (t : String) : Bool :=
  t = "h1" || t = "h2" || t = "h3" || t = "h4" || t = "h5" || t = "h6"

/-- Numeric level of a heading tag, 7 for anything else (the source only
calls it on heading tags). -/
def headingLevelNum (t : String) : Nat :=
  if t = "h1" then 1 else if t = "h2" then 2 else if t = "h3" then 3
  else if t = "h4" then 4 else if t = "h5" then 5 else if t = "h6" then 6 else 7

mutual

/-- Node.textContent: concatenation of all text node data in the subtree. -/
def textContent : DNode → String
  | .text s => s
  | .elem _ cs => textContentList cs

/-- Node.textContent over a child list. -/
def textContentList : List DNode → String
  | [] => ""
  | n :: rest => textContent n ++ textContentList rest

end

mutual

/-- One step of the TreeWalker accumulation: a text node appends its trimmed
data plus a space when longer than 2 characters; an element with a rejected
tag is skipped with its whole subtree; any other element appends a line
break when block-level and then its children are walked. -/
def walkNode (acc : String) : DNode → String
  | .text s =>
    let t := jsTrim s
    if t ≠ "" && decide (t.data.length > 2) then acc ++ t ++ " " else acc
  | .elem tag cs =>
    if rejectedTag tag then acc
    else walkList (if blockTag tag then acc ++ "\n" else acc) cs

/-- TreeWalker accumulation over a sibling list in document order. -/
def walkList (acc : String) : List DNode → String
  | [] => acc
  | n :: rest => walkList (walkNode acc n) rest

end

/-- The heading branch of extractSectionText: concatenate the trimmed
textContent of the following element siblings, each followed by a line
break, stopping at the first sibling heading of equal or higher level; text
siblings are skipped because the source iterates nextElementSibling. -/
def collectAfterHeading (lvl : Nat) (acc : String) : List DNode → String
  | [] => acc
  | .text _ :: rest => collectAfterHeading lvl acc rest
  | .elem t cs :: rest =>
    if isHeadingTag t && headingLevelNum t ≤ lvl then acc
    else
      let s := jsTrim (textContent (.elem t cs))
      collectAfterHeading lvl
        (if s ≠ "" && decide (s.data.length > 2) then acc ++ s ++ "\n" else acc) rest

/-- First cleanup regex of extractSectionText: replace every maximal run of
whitespace characters with a single space. -/
def collapseWSAux (prevWS : Bool) : List Char → List Char
  | [] => []
  | c :: cs =>
    if c.isWhitespace then
      if prevWS then collapseWSAux true cs else ' ' :: collapseWSAux true cs
    else c :: collapseWSAux false cs

/-- Second cleanup regex of extractSectionText: replace every match of a
line break, whitespace, line break pattern (greedy, left to right) with a
single line break. -/
def collapseBlank (fuel : Nat) (l : List Char) : List Char :=
  match fuel, l with
  | 0, l => l
  | _ + 1, [] => []
  | fuel + 1, c :: cs =>
    if c = '\n' then
      let run := cs.takeWhile Char.isWhitespace
      match ((run.enum.filter (fun p => p.2 = '\n')).map Prod.fst).getLast? with
      | some j => '\n' :: collapseBlank fuel (cs.drop (j + 1))
      | none => c :: collapseBlank fuel cs
    else c :: collapseBlank fuel cs

/-- The cleanup chain of extractSectionText: collapse whitespace runs to one
space, collapse blank lines, trim. -/
def cleanSectionText (s : String) : String :=
  jsTrim ⟨collapseBlank s.data.length (collapseWSAux false s.data)⟩

/-- Model of extractSectionText: the heading branch collects following
element siblings up to the next heading of equal or higher level, the
non-heading branch walks the subtree with the TreeWalker; both end with the
cleanup chain. The element is passed together with its following siblings
because the heading branch reads them from the DOM. -/
def extractSectionText (el : DNode) (followingSiblings : List DNode) : String :=
  let raw :=
    match el with
    | .elem t _ =>
      if isHeadingTag t then
        collectAfterHeading (headingLevelNum t) "" followingSiblings
      else
        match el with
        | .elem _ cs => walkList "" cs
        | .text _ => ""
    | .text _ => ""
  cleanSectionText raw

/-! ### Section mapper (parsePageForMapping, content script)

The live document is modelled as a flat list of elements in document order
(preorder), each holding its lowercase tag name, its id attribute (none when
the attribute is absent), its role and aria-label attributes, its rendered
text (innerText) and the index of its parent element. Preorder indexing
means a parent always precedes its children, which the WellFormedDoc
predicate states. The only mutation the source performs, writing a missing
id attribute back onto an element, is modelled by setIdAt. -/

/-- One element of the live document. -/
structure Elem where
  tag : String
  id : Option String
  role : Option String
  ariaLabel : Option String
  text : String
  parent : Option Nat
deriving Repr, DecidableEq

/-- The document: its elements in document order. -/
abbrev Doc := List Elem

/-- Parents come strictly before their children in document order. -/
def WellFormedDoc (d : Doc) : Prop :=
  ∀ (i : Nat) (e : Elem) (p : Nat), d[i]? = some e → e.parent = some p → p < i

/-- The id attribute of the element at an index, none when the element or
the attribute is missing. -/
def idAt (d : Doc) (i : Nat) : Option String :=
  d[i]?.bind Elem.id

/-- JavaScript truthiness of a read id or attribute string: present and
non-empty. -/
def truthyStr (o : Option String) : Option String :=
  match o with
  | some s => if s = "" then none else some s
  | none => none

/-- Write an id attribute onto the element at an index. -/
def setIdAt (d : Doc) (i : Nat) (s : String) : Doc :=
  match d[i]? with
  | some e => d.set i { e with id := some s }
  | none => d

/-- Model of Element.closest with selector [id]: the nearest
ancestor-or-self whose id attribute is present (possibly empty). Fuel-driven
walk up the parent chain; the callers pass the document length, enough for
every well-formed document. -/
def closestIdIdx (d : Doc) : Nat → Nat → Option Nat
  | 0, _ => none
  | fuel + 1, i =>
    match d[i]? with
    | none => none
    | some e =>
      if e.id.isSome then some i
      else
        match e.parent with
        | none => none
        | some p => closestIdIdx d fuel p

/-- The id fallback chain of the heading loop: own id if truthy, else the
truthy id of the immediate parent, else the truthy id of the nearest
ancestor-or-self carrying an id attribute; none when the chain falls
through and a fresh id must be synthesized. -/
def resolveHeadingId (d : Doc) (i : Nat) : Option String :=
  match truthyStr (idAt d i) with
  | some s => some s
  | none =>
    match truthyStr (d[i]?.bind Elem.parent |>.bind (idAt d)) with
    | some s => some s
    | none =>
      match closestIdIdx d d.length i with
      | some j => truthyStr (idAt d j)
      | none => none

/-- The prefix of every synthesized id (GEN_ID_PREFIX in the source). -/
def genIdBase : String := "ctx-nav-target-"

/-- A synthesized id: prefix, kind (heading- or landmark-), decimal counter
value. -/
def mkGenId (kind : String) (c : Nat) : String :=
  genIdBase ++ kind ++ natRepr c

/-- The text filters of the heading loop: the trimmed text must be
non-empty, at least 2 characters, at most 100 characters, must not equal
contents, menu or navigation case-insensitively and must not start with
edit case-insensitively. -/
def headingKept (raw : String) : Bool :=
  let text := jsTrim raw
  if text = "" || decide (text.data.length < 2) then false
  else
    let lower := jsToLower text
    !(lower = "contents" || lower = "menu" || lower = "navigation" ||
      strStartsWith lower "edit" || decide (text.data.length > 100))

/-- The mapper state threaded through both loops: the (possibly mutated)
document, the shared synthesized-id counter and the sections list. -/
abbrev MapState := Doc × Nat × List Section

/-- The body of one heading iteration once the element is at hand: apply the
text filters, resolve the id through the fallback chain, synthesize and
write back a fresh heading id when the chain fails, and emit a content
section. -/
def phSome (d : Doc) (c : Nat) (secs : List Section) (i : Nat) (e : Elem) : MapState :=
  if isHeadingTag e.tag && headingKept e.text then
    match resolveHeadingId d i with
    | some id => (d, c,
        secs ++ [⟨id, strTake (jsTrim e.text) 80, "heading", some e.tag, "content"⟩])
    | none => (setIdAt d i (mkGenId "heading-" c), c + 1,
        secs ++ [⟨mkGenId "heading-" c, strTake (jsTrim e.text) 80, "heading",
          some e.tag, "content"⟩])
  else (d, c, secs)

/-- One iteration of the heading loop of parsePageForMapping on the element
at index i: non-headings and filtered headings contribute nothing. -/
def processHeading (st : MapState) (i : Nat) : MapState :=
  let (d, c, secs) := st
  match d[i]? with
  | none => st
  | some e => phSome d c secs i e

/-- The landmark selector of parsePageForMapping: main, footer,
nav[role=navigation], header[role=banner]. -/
def isLandmarkSel (e : Elem) : Bool :=
  e.tag = "main" || e.tag = "footer" ||
  (e.tag = "nav" && e.role = some "navigation") ||
  (e.tag = "header" && e.role = some "banner")

/-- Strict ancestors of an index, walking the parent chain with fuel. -/
def ancChain (d : Doc) : Nat → Nat → List Nat
  | 0, _ => []
  | fuel + 1, i =>
    match d[i]?.bind Elem.parent with
    | none => []
    | some p => p :: ancChain d fuel p

/-- Element.querySelector for h1,h2,h3,h4 inside a landmark: the first
strict descendant in document order with one of those tags. -/
def firstDescHeading (d : Doc) (i : Nat) : Option Elem :=
  (List.range d.length).findSome? (fun j =>
    match d[j]? with
    | some e =>
      if (e.tag = "h1" || e.tag = "h2" || e.tag = "h3" || e.tag = "h4") &&
          (ancChain d d.length j).contains i then
        some e
      else none
    | none => none)

/-- Model of humanLabel: a truthy aria-label trimmed, else the trimmed text
of the first descendant h1-h4 when non-empty, else the lowercase tag name. -/
def humanLabel (d : Doc) (i : Nat) (e : Elem) : String :=
  match truthyStr e.ariaLabel with
  | some a => jsTrim a
  | none =>
    match firstDescHeading d i with
    | some h => if jsTrim h.text = "" then e.tag else jsTrim h.text
    | none => e.tag

/-- The emitted role of a landmark: its truthy role attribute, else its tag
name (el.getAttribute of role, with the or-fallback to tagName). -/
def landmarkRole (e : Elem) : String :=
  match truthyStr e.role with
  | some r => r
  | none => e.tag

/-- The tail of one landmark iteration, after the id has been resolved or
synthesized (d is the possibly mutated document): compute the human label
and the role, then emit a landmark section unless the label is empty, the
string div or the element tag name. -/
def emitLandmark (d : Doc) (c : Nat) (secs : List Section) (i : Nat) (e : Elem)
    (id : String) : MapState :=
  if humanLabel d i e ≠ "" && humanLabel d i e ≠ "div" && humanLabel d i e ≠ e.tag then
    (d, c, secs ++ [⟨id, humanLabel d i e, landmarkRole e, none, "landmark"⟩])
  else (d, c, secs)

/-- The body of one landmark iteration: a landmark takes its own truthy id
or synthesizes and writes back a fresh landmark id from the shared counter,
then emits through emitLandmark. -/
def plSome (d : Doc) (c : Nat) (secs : List Section) (i : Nat) (e : Elem) : MapState :=
  if isLandmarkSel e then
    match truthyStr e.id with
    | some s => emitLandmark d c secs i e s
    | none =>
      emitLandmark (setIdAt d i (mkGenId "landmark-" c)) (c + 1) secs i e
        (mkGenId "landmark-" c)
  else (d, c, secs)

/-- One iteration of the landmark loop of parsePageForMapping on the element
at index i: non-landmarks contribute nothing. -/
def processLandmark (st : MapState) (i : Nat) : MapState :=
  let (d, c, secs) := st
  match d[i]? with
  | none => st
  | some e => plSome d c secs i e

/-- Model of parsePageForMapping: the heading loop over the whole document
in document order, then the landmark loop, sharing one counter and one
sections list. Returns the mutated document and the emitted sections. -/
def parsePageForMapping (d : Doc) : Doc × List Section :=
  let st1 := (List.range d.length).foldl processHeading (d, 0, [])
  let st2 := (List.range st1.1.length).foldl processLandmark st1
  (st2.1, st2.2.2)

/-! ### Navigation actuator (navigateToSection and the message listener) -/

/-- A scroll command as issued by scrollIntoView. -/
structure ScrollCommand where
  targetIndex : Nat
  behavior : String
  block : String
deriving Repr, DecidableEq

/-- Model of document.getElementById: the first element in document order
whose id attribute equals the argument. -/
def getElementById (d : Doc) (sectionId : String) : Option Nat :=
  (List.range d.length).findSome? (fun i =>
    if idAt d i = some sectionId then some i else none)

/-- Model of navigateToSection: throws (Except.error) with the message
Section not found when the id resolves to no element, otherwise scrolls the
element into view with behavior smooth and block start. -/
def navigateToSection (d : Doc) (sectionId : String) : Except String ScrollCommand :=
  match getElementById d sectionId with
  | none => .error ("Section not found: " ++ sectionId)
  | some i => .ok { targetIndex := i, behavior := "smooth", block := "start" }

/-- The response shape the content-script message listener sends back. -/
inductive MsgResponse where
  | ok (cmd : ScrollCommand)
  | err (message : String)
deriving Repr, DecidableEq

/-- Model of the navigate_to_section branch of the message listener: the
thrown error is caught and surfaced as an ok:false response with the error
message, never crashing the page. -/
def handleNavigateMessage (d : Doc) (sectionId : String) : MsgResponse :=
  match navigateToSection d sectionId with
  | .ok cmd => .ok cmd
  | .error e => .err e

/-! ### Helper definitions for the verification

These are not part of the source; they package document well-formedness and
the decidable hypotheses the theorems use. -/

/-- Forget the id attribute of one element. -/
def eraseId (e : Elem) : Elem := { e with id := none }

/-- The document with every id attribute forgotten; two documents with equal
shapes differ only in id attributes. -/
def shapeOf (d : Doc) : Doc := d.map eraseId

/-- The sections one landmark iteration appends, starting from an empty
sections list and counter 0; independent of the incoming counter and
sections when the landmark already has a truthy id. -/
def plTail (d : Doc) (i : Nat) : List Section :=
  (processLandmark (d, 0, []) i).2.2

/-- Decidable check of WellFormedDoc: every parent index is smaller than its
child index. -/
def wellFormedB (d : Doc) : Bool :=
  d.enum.all (fun p =>
    match p.2.parent with
    | some q => decide (q < p.1)
    | none => true)

/-- Decidable check: no element of the document carries an id attribute. -/
def noIdsB (d : Doc) : Bool :=
  d.all (fun e => e.id.isNone)

/-- Decidable check: no heading element has a heading element among its
strict ancestors (headings do not nest, as in valid HTML). -/
def noNestedHeadingsB (d : Doc) : Bool :=
  d.enum.all (fun p =>
    !(isHeadingTag p.2.tag) ||
      (ancChain d d.length p.1).all (fun j =>
        match d[j]? with
        | some a => !(isHeadingTag a.tag)
        | none => true))

/-- Decidable check: every element matched by the landmark selector already
carries a non-empty id attribute. -/
def landmarksHaveIdsB (d : Doc) : Bool :=
  d.all (fun e => !(isLandmarkSel e) || (truthyStr e.id).isSome)

/-! ## Lemmas

Everything from here on is proof infrastructure and the claim theorems. -/

/-! ### Decimal rendering: injectivity of natRepr -/

theorem toDigitsRev_eq_digits : ∀ fuel n, n ≤ fuel → toDigitsRev fuel n = Nat.digits 10 n := by
  intro fuel
  induction fuel with
  | zero =>
    intro n hn
    interval_cases n
    simp [toDigitsRev]
  | succ f ih =>
    intro n hn
    by_cases h0 : n = 0
    · simp [toDigitsRev, h0]
    · rw [toDigitsRev, if_neg h0,
        Nat.digits_def' (by norm_num : (1 : ℕ) < 10) (Nat.pos_of_ne_zero h0)]
      congr 1
      exact ih (n / 10) (by omega)

theorem digitChar_injOn : ∀ x < 10, ∀ y < 10, Nat.digitChar x = Nat.digitChar y → x = y := by
  decide

theorem map_digitChar_inj :
    ∀ (l1 l2 : List Nat), (∀ x ∈ l1, x < 10) → (∀ x ∈ l2, x < 10) →
      l1.map Nat.digitChar = l2.map Nat.digitChar → l1 = l2 := by
  intro l1
  induction l1 with
  | nil => intro l2 _ _ h; cases l2 <;> simp_all
  | cons a t ih =>
    intro l2 h1 h2 h
    cases l2 with
    | nil => simp at h
    | cons b t2 =>
      simp only [List.map_cons, List.cons.injEq] at h
      have ha : a = b :=
        digitChar_injOn a (h1 a (by simp)) b (h2 b (by simp)) h.1
      have ht : t = t2 :=
        ih t2 (fun x hx => h1 x (by simp [hx])) (fun x hx => h2 x (by simp [hx])) h.2
      rw [ha, ht]

theorem natRepr_inj : ∀ a b : Nat, natRepr a = natRepr b → a = b := by
  have digitsLt : ∀ n : Nat, ∀ x ∈ Nat.digits 10 n, x < 10 := fun n x hx =>
    Nat.digits_lt_base (by norm_num) hx
  have dataEq : ∀ a b : Nat, natRepr a = natRepr b → (natRepr a).data = (natRepr b).data :=
    fun a b h => congrArg String.data h
  have nonzeroData : ∀ n : Nat, n ≠ 0 →
      (natRepr n).data = ((Nat.digits 10 n).reverse.map Nat.digitChar) := by
    intro n hn
    rw [natRepr, if_neg hn, toDigitsRev_eq_digits (n + 1) n (by omega), List.map_reverse]
  have zeroOfData : ∀ n : Nat, (natRepr n).data = ['0'] → n = 0 := by
    intro n h
    by_contra hn
    rw [nonzeroData n hn] at h
    have hrev : Nat.digits 10 n = [0] := by
      have h2 : (Nat.digits 10 n).reverse.map Nat.digitChar = [Nat.digitChar 0] := by
        simpa using h
      have h3 := map_digitChar_inj ((Nat.digits 10 n).reverse) [0]
        (fun x hx => digitsLt n x (List.mem_reverse.mp hx)) (by simp) (by simpa using h2)
      have := congrArg List.reverse h3
      simpa using this
    have h6 := Nat.ofDigits_digits 10 n
    rw [hrev] at h6
    simp [Nat.ofDigits] at h6
    exact hn h6.symm
  intro a b h
  by_cases ha : a = 0
  · subst ha
    have : (natRepr b).data = ['0'] := by
      rw [← dataEq 0 b h]; rfl
    exact (zeroOfData b this).symm
  · by_cases hb : b = 0
    · subst hb
      have : (natRepr a).data = ['0'] := by
        rw [dataEq a 0 h]; rfl
      exact zeroOfData a this
    · have hd := dataEq a b h
      rw [nonzeroData a ha, nonzeroData b hb] at hd
      have h3 := map_digitChar_inj ((Nat.digits 10 a).reverse) ((Nat.digits 10 b).reverse)
        (fun x hx => digitsLt a x (List.mem_reverse.mp hx))
        (fun x hx => digitsLt b x (List.mem_reverse.mp hx)) hd
      have h4 : Nat.digits 10 a = Nat.digits 10 b := by
        have := congrArg List.reverse h3
        simpa using this
      exact Nat.digits_inj_iff.mp h4

/-! ### Synthesized id facts -/

theorem natRepr_ne_empty : ∀ n : Nat, natRepr n ≠ "" := by
  intro n h
  have hd := congrArg String.data h
  by_cases hn : n = 0
  · rw [natRepr, if_pos hn] at hd
    simp at hd
  · rw [natRepr, if_neg hn] at hd
    have : toDigitsRev (n + 1) n = (n % 10) :: toDigitsRev n (n / 10) := by
      rw [toDigitsRev, if_neg hn]
    simp only [this] at hd
    have hne := congrArg List.length hd
    simp at hne

theorem mkGenId_data (kind : String) (c : Nat) :
    (mkGenId kind c).data = genIdBase.data ++ kind.data ++ (natRepr c).data := by
  rw [mkGenId, String.data_append, String.data_append]

theorem mkGenId_ne_empty (kind : String) (c : Nat) : mkGenId kind c ≠ "" := by
  intro h
  have hd := congrArg String.data h
  rw [mkGenId_data, show ("" : String).data = [] from rfl] at hd
  have := congrArg List.length hd
  simp [genIdBase] at this

theorem mkGenId_kind_inj (kind : String) {a b : Nat}
    (h : mkGenId kind a = mkGenId kind b) : a = b := by
  have hd := congrArg String.data h
  rw [mkGenId_data, mkGenId_data, List.append_assoc, List.append_assoc] at hd
  have h1 := List.append_cancel_left hd
  have h2 := List.append_cancel_left h1
  exact natRepr_inj a b (String.ext h2)

theorem mkGenId_heading_ne_landmark (a b : Nat) :
    mkGenId "heading-" a ≠ mkGenId "landmark-" b := by
  intro h
  have hd := congrArg String.data h
  rw [mkGenId_data, mkGenId_data, List.append_assoc, List.append_assoc] at hd
  have h1 := List.append_cancel_left hd
  have hh : ("heading-" : String).data = 'h' :: "eading-".data := rfl
  have hl : ("landmark-" : String).data = 'l' :: "andmark-".data := rfl
  rw [hh, hl, List.cons_append, List.cons_append] at h1
  have := (List.cons.injEq _ _ _ _).mp h1
  exact absurd this.1 (by decide)

/-! ### Document shape: every field except the id attribute -/

theorem setIdAt_length (d : Doc) (i : Nat) (s : String) :
    (setIdAt d i s).length = d.length := by
  unfold setIdAt
  split <;> simp

theorem getElem?_setIdAt_ne (d : Doc) {i j : Nat} (s : String) (h : j ≠ i) :
    (setIdAt d i s)[j]? = d[j]? := by
  unfold setIdAt
  split
  · rw [List.getElem?_set, if_neg (Ne.symm h)]
  · rfl

theorem getElem?_setIdAt_self (d : Doc) {i : Nat} {e : Elem} (s : String)
    (h : d[i]? = some e) :
    (setIdAt d i s)[i]? = some { e with id := some s } := by
  have hlt : i < d.length := (List.getElem?_eq_some_iff.mp h).1
  unfold setIdAt
  rw [h]
  rw [List.getElem?_set, if_pos rfl, if_pos hlt]

theorem idAt_setIdAt_ne (d : Doc) {i j : Nat} (s : String) (h : j ≠ i) :
    idAt (setIdAt d i s) j = idAt d j := by
  unfold idAt
  rw [getElem?_setIdAt_ne d s h]

theorem idAt_setIdAt_self (d : Doc) {i : Nat} {e : Elem} (s : String)
    (h : d[i]? = some e) :
    idAt (setIdAt d i s) i = some s := by
  unfold idAt
  rw [getElem?_setIdAt_self d s h]
  rfl

theorem idAt_eq_none_of_ge (d : Doc) {i : Nat} (h : d.length ≤ i) : idAt d i = none := by
  unfold idAt
  rw [List.getElem?_eq_none h]
  rfl

theorem shapeOf_setIdAt (d : Doc) (i : Nat) (s : String) :
    shapeOf (setIdAt d i s) = shapeOf d := by
  unfold setIdAt
  split
  · next e heq =>
    have hlt : i < d.length := (List.getElem?_eq_some_iff.mp heq).1
    unfold shapeOf
    apply List.ext_getElem?
    intro j
    rw [List.getElem?_map, List.getElem?_map, List.getElem?_set]
    by_cases hij : i = j
    · subst hij
      rw [if_pos rfl, if_pos hlt, heq]
      rfl
    · rw [if_neg hij]
  · rfl

theorem shape_length {d d' : Doc} (h : shapeOf d = shapeOf d') : d.length = d'.length := by
  have := congrArg List.length h
  simpa [shapeOf] using this

theorem shape_getElem? {d d' : Doc} (h : shapeOf d = shapeOf d') (i : Nat) :
    d[i]?.map eraseId = d'[i]?.map eraseId := by
  have := congrArg (fun l => l[i]?) h
  simpa [shapeOf, List.getElem?_map] using this

theorem shape_none {d d' : Doc} (h : shapeOf d = shapeOf d') {i : Nat}
    (hi : d[i]? = none) : d'[i]? = none := by
  have := shape_getElem? h i
  rw [hi] at this
  cases hd : d'[i]? with
  | none => rfl
  | some e => rw [hd] at this; simp at this

theorem shape_some {d d' : Doc} (h : shapeOf d = shapeOf d') {i : Nat} {e : Elem}
    (he : d[i]? = some e) :
    ∃ e' : Elem, d'[i]? = some e' ∧ e'.tag = e.tag ∧ e'.text = e.text ∧
      e'.role = e.role ∧ e'.ariaLabel = e.ariaLabel ∧ e'.parent = e.parent := by
  have hg := shape_getElem? h i
  rw [he] at hg
  cases hd : d'[i]? with
  | none => rw [hd] at hg; simp at hg
  | some e' =>
    rw [hd] at hg
    have h2 : eraseId e = eraseId e' := by simpa using hg
    refine ⟨e', rfl, (congrArg Elem.tag h2).symm, (congrArg Elem.text h2).symm,
      (congrArg Elem.role h2).symm, (congrArg Elem.ariaLabel h2).symm,
      (congrArg Elem.parent h2).symm⟩

theorem wellFormed_of_shape {d d' : Doc} (h : shapeOf d = shapeOf d')
    (hw : WellFormedDoc d) : WellFormedDoc d' := by
  intro i e p he hp
  obtain ⟨e2, he2, _, _, _, _, hpar⟩ := shape_some h.symm he
  exact hw i e2 p he2 (by rw [hpar, hp])

/-! ### Ancestor chains and the closest-ancestor id lookup -/

theorem shape_parentAt {d d' : Doc} (h : shapeOf d = shapeOf d') (i : Nat) :
    d[i]?.bind Elem.parent = d'[i]?.bind Elem.parent := by
  cases hd : d[i]? with
  | none => rw [shape_none h hd]
  | some e =>
    obtain ⟨e', he', _, _, _, _, hpar⟩ := shape_some h hd
    rw [he']
    simp [hpar]

theorem ancChain_succ (d : Doc) (f i : Nat) :
    ancChain d (f + 1) i =
      (match d[i]?.bind Elem.parent with
       | none => []
       | some p => p :: ancChain d f p) := rfl

theorem ancChain_shape {d d' : Doc} (h : shapeOf d = shapeOf d') :
    ∀ fuel i, ancChain d fuel i = ancChain d' fuel i := by
  intro fuel
  induction fuel with
  | zero => intro i; rfl
  | succ f ih =>
    intro i
    rw [ancChain_succ, ancChain_succ, ← shape_parentAt h i]
    cases d[i]?.bind Elem.parent with
    | none => rfl
    | some p =>
      show p :: ancChain d f p = p :: ancChain d' f p
      rw [ih p]

theorem parent_some_of_bind {d : Doc} {i p : Nat}
    (hp : d[i]?.bind Elem.parent = some p) :
    ∃ e : Elem, d[i]? = some e ∧ e.parent = some p := by
  cases hd : d[i]? with
  | none => rw [hd] at hp; cases hp
  | some e => rw [hd] at hp; exact ⟨e, rfl, hp⟩

theorem ancChain_lt {d : Doc} (hw : WellFormedDoc d) :
    ∀ fuel i j, j ∈ ancChain d fuel i → j < i := by
  intro fuel
  induction fuel with
  | zero => intro i j hj; simp [ancChain] at hj
  | succ f ih =>
    intro i j hj
    rw [ancChain_succ] at hj
    cases hpp : d[i]?.bind Elem.parent with
    | none => rw [hpp] at hj; simp at hj
    | some p =>
      rw [hpp] at hj
      obtain ⟨e, he, hpar⟩ := parent_some_of_bind hpp
      have hpi : p < i := hw i e p he hpar
      rcases List.mem_cons.mp hj with h1 | h1
      · exact h1 ▸ hpi
      · exact lt_trans (ih p j h1) hpi

theorem closestIdIdx_succ_none {d : Doc} {i : Nat} (f : Nat) (h : d[i]? = none) :
    closestIdIdx d (f + 1) i = none := by
  have h0 : closestIdIdx d (f + 1) i =
      (match d[i]? with
       | none => none
       | some e =>
         if e.id.isSome then some i
         else match e.parent with
           | none => none
           | some p => closestIdIdx d f p) := rfl
  rw [h0, h]

theorem closestIdIdx_succ_some {d : Doc} {i : Nat} {e : Elem} (f : Nat) (h : d[i]? = some e) :
    closestIdIdx d (f + 1) i =
      (if e.id.isSome then some i
       else match e.parent with
         | none => none
         | some p => closestIdIdx d f p) := by
  have h0 : closestIdIdx d (f + 1) i =
      (match d[i]? with
       | none => none
       | some e =>
         if e.id.isSome then some i
         else match e.parent with
           | none => none
           | some p => closestIdIdx d f p) := rfl
  rw [h0, h]

theorem idAt_some_elem {d : Doc} {i : Nat} {e : Elem} (he : d[i]? = some e) :
    idAt d i = e.id := by
  unfold idAt
  rw [he]
  rfl

theorem closest_eq_none {d : Doc} :
    ∀ fuel i, idAt d i = none → (∀ j ∈ ancChain d fuel i, idAt d j = none) →
      closestIdIdx d fuel i = none := by
  intro fuel
  induction fuel with
  | zero => intro i _ _; rfl
  | succ f ih =>
    intro i hi hall
    cases he : d[i]? with
    | none => exact closestIdIdx_succ_none f he
    | some e =>
      rw [closestIdIdx_succ_some f he]
      have hid : e.id = none := by rw [← idAt_some_elem he]; exact hi
      rw [hid]
      simp only [Option.isSome_none, Bool.false_eq_true, if_false]
      cases hp : e.parent with
      | none => rfl
      | some p =>
        have hbind : d[i]?.bind Elem.parent = some p := by rw [he]; simpa using hp
        have hmem : ∀ j ∈ ancChain d f p, j ∈ ancChain d (f + 1) i := by
          intro j hj
          rw [ancChain_succ, hbind]
          exact List.mem_cons_of_mem _ hj
        have hpmem : p ∈ ancChain d (f + 1) i := by
          rw [ancChain_succ, hbind]
          exact List.mem_cons_self _ _
        exact ih p (hall p hpmem) (fun j hj => hall j (hmem j hj))

theorem closest_le {d : Doc} (hw : WellFormedDoc d) :
    ∀ fuel i j, closestIdIdx d fuel i = some j → j ≤ i := by
  intro fuel
  induction fuel with
  | zero => intro i j h; cases h
  | succ f ih =>
    intro i j h
    cases he : d[i]? with
    | none => rw [closestIdIdx_succ_none f he] at h; cases h
    | some e =>
      rw [closestIdIdx_succ_some f he] at h
      by_cases hs : e.id.isSome
      · rw [if_pos hs] at h
        cases h
        exact le_rfl
      · rw [if_neg hs] at h
        cases hp : e.parent with
        | none => rw [hp] at h; cases h
        | some p =>
          rw [hp] at h
          have hpi : p < i := hw i e p he hp
          exact le_of_lt (lt_of_le_of_lt (ih p j h) hpi)

theorem closest_congr {dA dB : Doc} (h : shapeOf dA = shapeOf dB) (hw : WellFormedDoc dA) :
    ∀ fuel i, (∀ j, j ≤ i → idAt dA j = idAt dB j) →
      closestIdIdx dA fuel i = closestIdIdx dB fuel i := by
  intro fuel
  induction fuel with
  | zero => intro i _; rfl
  | succ f ih =>
    intro i hids
    cases he : dA[i]? with
    | none => rw [closestIdIdx_succ_none f he, closestIdIdx_succ_none f (shape_none h he)]
    | some e =>
      obtain ⟨e', he', _, _, _, _, hpar⟩ := shape_some h he
      rw [closestIdIdx_succ_some f he, closestIdIdx_succ_some f he']
      have hid : e.id = e'.id := by
        rw [← idAt_some_elem he, ← idAt_some_elem he']
        exact hids i le_rfl
      rw [← hid, hpar]
      by_cases hs : e.id.isSome
      · rw [if_pos hs, if_pos hs]
      · rw [if_neg hs, if_neg hs]
        cases hp : e.parent with
        | none => rfl
        | some p =>
          have hpi : p < i := hw i e p he hp
          exact ih p (fun j hj => hids j (le_of_lt (lt_of_le_of_lt hj hpi)))

theorem resolve_congr {dA dB : Doc} (h : shapeOf dA = shapeOf dB) (hw : WellFormedDoc dA)
    {i : Nat} (hids : ∀ j, j ≤ i → idAt dA j = idAt dB j) :
    resolveHeadingId dA i = resolveHeadingId dB i := by
  have h0 : idAt dA i = idAt dB i := hids i le_rfl
  have hparid : ((dA[i]?.bind Elem.parent).bind (idAt dA)) =
      ((dB[i]?.bind Elem.parent).bind (idAt dB)) := by
    rw [← shape_parentAt h i]
    cases hp : dA[i]?.bind Elem.parent with
    | none => rfl
    | some p =>
      obtain ⟨e, he, hpar⟩ := parent_some_of_bind hp
      have hpi : p < i := hw i e p he hpar
      simpa using hids p (le_of_lt hpi)
  have hlen : dA.length = dB.length := shape_length h
  have hclo : closestIdIdx dB dB.length i = closestIdIdx dA dA.length i := by
    rw [← hlen]
    exact (closest_congr h hw dA.length i hids).symm
  unfold resolveHeadingId
  rw [← h0, ← hparid, hclo]
  cases truthyStr (idAt dA i) with
  | some s => rfl
  | none =>
    cases truthyStr ((dA[i]?.bind Elem.parent).bind (idAt dA)) with
    | some s => rfl
    | none =>
      cases hc : closestIdIdx dA dA.length i with
      | none => rfl
      | some j =>
        have hji : j ≤ i := closest_le hw dA.length i j hc
        show truthyStr (idAt dA j) = truthyStr (idAt dB j)
        rw [hids j hji]

/-! ### Step characterizations of the two mapper loops -/

theorem processHeading_eq (d : Doc) (c : Nat) (secs : List Section) (i : Nat) :
    processHeading (d, c, secs) i =
      (match d[i]? with
       | none => (d, c, secs)
       | some e => phSome d c secs i e) := rfl

theorem processLandmark_eq (d : Doc) (c : Nat) (secs : List Section) (i : Nat) :
    processLandmark (d, c, secs) i =
      (match d[i]? with
       | none => (d, c, secs)
       | some e => plSome d c secs i e) := rfl

/-! ### Per-step properties of the mapper loops -/

theorem truthyStr_some {s : String} (hs : s ≠ "") : truthyStr (some s) = some s := by
  show (if s = "" then none else some s) = some s
  rw [if_neg hs]

theorem processHeading_none {d : Doc} {i : Nat} (c : Nat) (secs : List Section)
    (h : d[i]? = none) : processHeading (d, c, secs) i = (d, c, secs) := by
  rw [processHeading_eq, h]

theorem processHeading_some {d : Doc} {i : Nat} {e : Elem} (c : Nat) (secs : List Section)
    (h : d[i]? = some e) : processHeading (d, c, secs) i = phSome d c secs i e := by
  rw [processHeading_eq, h]

theorem processHeading_not_kept {d : Doc} {i : Nat} {e : Elem} (c : Nat) (secs : List Section)
    (h : d[i]? = some e) (hc : ¬((isHeadingTag e.tag && headingKept e.text) = true)) :
    processHeading (d, c, secs) i = (d, c, secs) := by
  rw [processHeading_some c secs h]
  unfold phSome
  exact if_neg hc

theorem processHeading_resolved {d : Doc} {i : Nat} {e : Elem} {id : String}
    (c : Nat) (secs : List Section) (h : d[i]? = some e)
    (hc : (isHeadingTag e.tag && headingKept e.text) = true)
    (hr : resolveHeadingId d i = some id) :
    processHeading (d, c, secs) i =
      (d, c, secs ++ [⟨id, strTake (jsTrim e.text) 80, "heading", some e.tag, "content"⟩]) := by
  rw [processHeading_some c secs h]
  unfold phSome
  rw [if_pos hc, hr]

theorem processHeading_synth {d : Doc} {i : Nat} {e : Elem}
    (c : Nat) (secs : List Section) (h : d[i]? = some e)
    (hc : (isHeadingTag e.tag && headingKept e.text) = true)
    (hr : resolveHeadingId d i = none) :
    processHeading (d, c, secs) i =
      (setIdAt d i (mkGenId "heading-" c), c + 1,
        secs ++ [⟨mkGenId "heading-" c, strTake (jsTrim e.text) 80, "heading",
          some e.tag, "content"⟩]) := by
  rw [processHeading_some c secs h]
  unfold phSome
  rw [if_pos hc, hr]

theorem processLandmark_none {d : Doc} {i : Nat} (c : Nat) (secs : List Section)
    (h : d[i]? = none) : processLandmark (d, c, secs) i = (d, c, secs) := by
  rw [processLandmark_eq, h]

theorem processLandmark_some {d : Doc} {i : Nat} {e : Elem} (c : Nat) (secs : List Section)
    (h : d[i]? = some e) : processLandmark (d, c, secs) i = plSome d c secs i e := by
  rw [processLandmark_eq, h]

theorem processLandmark_not_sel {d : Doc} {i : Nat} {e : Elem} (c : Nat) (secs : List Section)
    (h : d[i]? = some e) (hl : ¬(isLandmarkSel e = true)) :
    processLandmark (d, c, secs) i = (d, c, secs) := by
  rw [processLandmark_some c secs h]
  unfold plSome
  exact if_neg hl

theorem processLandmark_truthy {d : Doc} {i : Nat} {e : Elem} {s : String}
    (c : Nat) (secs : List Section) (h : d[i]? = some e) (hl : isLandmarkSel e = true)
    (ht : truthyStr e.id = some s) :
    processLandmark (d, c, secs) i = emitLandmark d c secs i e s := by
  rw [processLandmark_some c secs h]
  unfold plSome
  rw [if_pos hl, ht]

theorem processLandmark_synth {d : Doc} {i : Nat} {e : Elem}
    (c : Nat) (secs : List Section) (h : d[i]? = some e) (hl : isLandmarkSel e = true)
    (ht : truthyStr e.id = none) :
    processLandmark (d, c, secs) i =
      emitLandmark (setIdAt d i (mkGenId "landmark-" c)) (c + 1) secs i e
        (mkGenId "landmark-" c) := by
  rw [processLandmark_some c secs h]
  unfold plSome
  rw [if_pos hl, ht]

theorem emitLandmark_eq (d : Doc) (c : Nat) (secs : List Section) (i : Nat) (e : Elem)
    (id : String) :
    emitLandmark d c secs i e id = (d, c, secs ++ (emitLandmark d 0 [] i e id).2.2) := by
  unfold emitLandmark
  by_cases hc : (humanLabel d i e ≠ "" && humanLabel d i e ≠ "div" &&
      humanLabel d i e ≠ e.tag) = true
  · rw [if_pos hc, if_pos hc]
    rfl
  · rw [if_neg hc, if_neg hc]
    simp

theorem resolve_none_self {d : Doc} {i : Nat} (h : resolveHeadingId d i = none) :
    truthyStr (idAt d i) = none := by
  unfold resolveHeadingId at h
  cases ht : truthyStr (idAt d i) with
  | none => rfl
  | some s => rw [ht] at h; cases h

theorem ph_shape (st : MapState) (i : Nat) :
    shapeOf (processHeading st i).1 = shapeOf st.1 := by
  obtain ⟨d, c, secs⟩ := st
  cases hd : d[i]? with
  | none => rw [processHeading_none c secs hd]
  | some e =>
    by_cases hcond : (isHeadingTag e.tag && headingKept e.text) = true
    · cases hr : resolveHeadingId d i with
      | some s => rw [processHeading_resolved c secs hd hcond hr]
      | none =>
        rw [processHeading_synth c secs hd hcond hr]
        exact shapeOf_setIdAt d i _
    · rw [processHeading_not_kept c secs hd hcond]

theorem ph_idAt_ne (st : MapState) (i : Nat) {j : Nat} (h : j ≠ i) :
    idAt (processHeading st i).1 j = idAt st.1 j := by
  obtain ⟨d, c, secs⟩ := st
  cases hd : d[i]? with
  | none => rw [processHeading_none c secs hd]
  | some e =>
    by_cases hcond : (isHeadingTag e.tag && headingKept e.text) = true
    · cases hr : resolveHeadingId d i with
      | some s => rw [processHeading_resolved c secs hd hcond hr]
      | none =>
        rw [processHeading_synth c secs hd hcond hr]
        exact idAt_setIdAt_ne d _ h
    · rw [processHeading_not_kept c secs hd hcond]

theorem ph_truthy (st : MapState) (i : Nat) {j : Nat} {s : String} (hs : s ≠ "")
    (hid : idAt st.1 j = some s) : idAt (processHeading st i).1 j = some s := by
  obtain ⟨d, c, secs⟩ := st
  by_cases hj : j = i
  · subst hj
    cases hd : d[j]? with
    | none => rw [processHeading_none c secs hd]; exact hid
    | some e =>
      by_cases hcond : (isHeadingTag e.tag && headingKept e.text) = true
      · cases hr : resolveHeadingId d j with
        | some t => rw [processHeading_resolved c secs hd hcond hr]; exact hid
        | none =>
          exfalso
          have h1 := resolve_none_self hr
          rw [hid, truthyStr_some hs] at h1
          cases h1
      · rw [processHeading_not_kept c secs hd hcond]
        exact hid
  · rw [ph_idAt_ne (d, c, secs) i hj]
    exact hid

theorem pl_shape (st : MapState) (i : Nat) :
    shapeOf (processLandmark st i).1 = shapeOf st.1 := by
  obtain ⟨d, c, secs⟩ := st
  cases hd : d[i]? with
  | none => rw [processLandmark_none c secs hd]
  | some e =>
    by_cases hl : isLandmarkSel e = true
    · cases ht : truthyStr e.id with
      | some s =>
        rw [processLandmark_truthy c secs hd hl ht, emitLandmark_eq]
      | none =>
        rw [processLandmark_synth c secs hd hl ht, emitLandmark_eq]
        exact shapeOf_setIdAt d i _
    · rw [processLandmark_not_sel c secs hd hl]

theorem pl_idAt_ne (st : MapState) (i : Nat) {j : Nat} (h : j ≠ i) :
    idAt (processLandmark st i).1 j = idAt st.1 j := by
  obtain ⟨d, c, secs⟩ := st
  cases hd : d[i]? with
  | none => rw [processLandmark_none c secs hd]
  | some e =>
    by_cases hl : isLandmarkSel e = true
    · cases ht : truthyStr e.id with
      | some s =>
        rw [processLandmark_truthy c secs hd hl ht, emitLandmark_eq]
      | none =>
        rw [processLandmark_synth c secs hd hl ht, emitLandmark_eq]
        exact idAt_setIdAt_ne d _ h
    · rw [processLandmark_not_sel c secs hd hl]

theorem pl_truthy (st : MapState) (i : Nat) {j : Nat} {s : String} (hs : s ≠ "")
    (hid : idAt st.1 j = some s) : idAt (processLandmark st i).1 j = some s := by
  obtain ⟨d, c, secs⟩ := st
  by_cases hj : j = i
  · subst hj
    cases hd : d[j]? with
    | none => rw [processLandmark_none c secs hd]; exact hid
    | some e =>
      by_cases hl : isLandmarkSel e = true
      · cases ht : truthyStr e.id with
        | some t =>
          rw [processLandmark_truthy c secs hd hl ht, emitLandmark_eq]
          exact hid
        | none =>
          exfalso
          have he : idAt d j = e.id := idAt_some_elem hd
          rw [he] at hid
          rw [hid, truthyStr_some hs] at ht
          cases ht
      · rw [processLandmark_not_sel c secs hd hl]
        exact hid
  · rw [pl_idAt_ne (d, c, secs) i hj]
    exact hid

/-! ### Fold lemmas -/

theorem foldl_shape {f : MapState → Nat → MapState}
    (hf : ∀ st i, shapeOf (f st i).1 = shapeOf st.1) (l : List Nat) (st : MapState) :
    shapeOf ((l.foldl f st).1) = shapeOf st.1 := by
  induction l generalizing st with
  | nil => rfl
  | cons a t ih => rw [List.foldl_cons, ih (f st a), hf st a]

theorem foldl_idAt_ne {f : MapState → Nat → MapState}
    (hf : ∀ st i, ∀ j, j ≠ i → idAt (f st i).1 j = idAt st.1 j)
    (l : List Nat) (st : MapState) (j : Nat) (h : ∀ i ∈ l, i ≠ j) :
    idAt ((l.foldl f st).1) j = idAt st.1 j := by
  induction l generalizing st with
  | nil => rfl
  | cons a t ih =>
    rw [List.foldl_cons, ih (f st a) (fun i hi => h i (List.mem_cons_of_mem a hi)),
      hf st a j (fun hh => h a (List.mem_cons_self a t) hh.symm)]

theorem foldl_truthy {f : MapState → Nat → MapState}
    (hf : ∀ st i, ∀ j s, s ≠ "" → idAt st.1 j = some s → idAt (f st i).1 j = some s)
    (l : List Nat) (st : MapState) {j : Nat} {s : String} (hs : s ≠ "")
    (hid : idAt st.1 j = some s) : idAt ((l.foldl f st).1) j = some s := by
  induction l generalizing st with
  | nil => exact hid
  | cons a t ih =>
    rw [List.foldl_cons]
    exact ih (f st a) (hf st a j s hs hid)

theorem pl_step_truthy_eq (d : Doc) (c : Nat) (secs : List Section) (i : Nat)
    (h : ∀ e : Elem, d[i]? = some e → isLandmarkSel e → (truthyStr e.id).isSome) :
    processLandmark (d, c, secs) i = (d, c, secs ++ plTail d i) := by
  unfold plTail
  cases hd : d[i]? with
  | none =>
    rw [processLandmark_none c secs hd, processLandmark_none 0 [] hd]
    simp
  | some e =>
    by_cases hl : isLandmarkSel e = true
    · cases ht : truthyStr e.id with
      | some s =>
        rw [processLandmark_truthy c secs hd hl ht, processLandmark_truthy 0 [] hd hl ht]
        exact emitLandmark_eq d c secs i e s
      | none =>
        exfalso
        have := h e hd hl
        rw [ht] at this
        cases this
    · rw [processLandmark_not_sel c secs hd hl, processLandmark_not_sel 0 [] hd hl]
      simp

theorem foldl_pl_truthy (l : List Nat) (d : Doc)
    (h : ∀ (i : Nat) (e : Elem), d[i]? = some e → isLandmarkSel e → (truthyStr e.id).isSome)
    (c : Nat) (secs : List Section) :
    l.foldl processLandmark (d, c, secs) =
      (d, c, secs ++ (l.foldl processLandmark (d, 0, [])).2.2) := by
  induction l generalizing c secs with
  | nil => simp
  | cons a t ih =>
    rw [List.foldl_cons, List.foldl_cons,
      pl_step_truthy_eq d c secs a (fun e he hl => h a e he hl),
      pl_step_truthy_eq d 0 [] a (fun e he hl => h a e he hl),
      ih c (secs ++ plTail d a), ih 0 ([] ++ plTail d a)]
    simp


/-! ### The heading phase rerun on a stabilized document -/

theorem resolve_self {d : Doc} {i : Nat} {s : String}
    (ht : truthyStr (idAt d i) = some s) : resolveHeadingId d i = some s := by
  unfold resolveHeadingId
  rw [ht]

theorem range_split (n k : Nat) (h : k ≤ n) :
    List.range n = List.range k ++ List.range' k (n - k) := by
  rw [List.range_eq_range' n, List.range_eq_range' k]
  have h2 := List.range'_append_1 0 k (n - k)
  rw [Nat.zero_add] at h2
  rw [h2]
  congr 1
  omega

theorem stA_succ (d : Doc) (k : Nat) :
    (List.range (k + 1)).foldl processHeading (d, 0, []) =
      processHeading ((List.range k).foldl processHeading (d, 0, [])) k := by
  rw [List.range_succ, List.foldl_append]
  rfl

theorem stA_ge (d : Doc) {k j : Nat} (h : k ≤ j) :
    idAt ((List.range k).foldl processHeading (d, 0, [])).1 j = idAt d j :=
  foldl_idAt_ne (fun st i j hj => ph_idAt_ne st i hj) _ _ j
    (fun i hi => by have := List.mem_range.mp hi; omega)

theorem stA_lt (d : Doc) {n k j : Nat} (hk : k ≤ n) (hj : j < k) :
    idAt ((List.range n).foldl processHeading (d, 0, [])).1 j =
      idAt ((List.range k).foldl processHeading (d, 0, [])).1 j := by
  rw [range_split n k hk, List.foldl_append]
  exact foldl_idAt_ne (fun st i j hj => ph_idAt_ne st i hj) _ _ j
    (fun i hi => by
      rw [List.mem_range'] at hi
      omega)

theorem stA_shape (d : Doc) (k : Nat) :
    shapeOf ((List.range k).foldl processHeading (d, 0, [])).1 = shapeOf d :=
  foldl_shape ph_shape _ _

theorem heading_phase_sim (d : Doc) (hw : WellFormedDoc d) :
    ∀ k, k ≤ d.length →
      (List.range k).foldl processHeading
          (((List.range d.length).foldl processHeading (d, 0, [])).1, 0, []) =
        (((List.range d.length).foldl processHeading (d, 0, [])).1, 0,
          ((List.range k).foldl processHeading (d, 0, [])).2.2) := by
  intro k
  induction k with
  | zero => intro _; rfl
  | succ k ih =>
    intro hk1
    have hk : k ≤ d.length := by omega
    have hBB0 : ∀ j, j < k →
        idAt ((List.range d.length).foldl processHeading (d, 0, [])).1 j =
          idAt ((List.range k).foldl processHeading (d, 0, [])).1 j :=
      fun j hj => stA_lt d hk hj
    have hCC0 : idAt ((List.range d.length).foldl processHeading (d, 0, [])).1 k =
        idAt ((List.range (k + 1)).foldl processHeading (d, 0, [])).1 k :=
      stA_lt d hk1 (Nat.lt_succ_self k)
    have hdh_shape0 : shapeOf ((List.range d.length).foldl processHeading (d, 0, [])).1 =
        shapeOf d := stA_shape d d.length
    rw [stA_succ ((List.range d.length).foldl processHeading (d, 0, [])).1 k, ih hk,
      stA_succ d k]
    rw [stA_succ d k] at hCC0
    generalize hgen : ((List.range d.length).foldl processHeading (d, 0, [])).1 = dh at hBB0 hCC0 hdh_shape0 ⊢
    rcases hA : (List.range k).foldl processHeading (d, 0, []) with ⟨dA, cA, sA⟩
    rw [hA] at hBB0 hCC0
    dsimp only at hBB0 hCC0 ⊢
    have hA_shape : shapeOf dA = shapeOf d := by
      have h1 := stA_shape d k
      rw [hA] at h1
      exact h1
    have hAdh : shapeOf dA = shapeOf dh := hA_shape.trans hdh_shape0.symm
    have hwA : WellFormedDoc dA := wellFormed_of_shape hA_shape.symm hw
    cases hdA : dA[k]? with
    | none =>
      have hdH : dh[k]? = none := shape_none hAdh hdA
      rw [processHeading_none cA sA hdA, processHeading_none 0 sA hdH]
    | some eA =>
      obtain ⟨eH, hdH, htag, htext, _, _, _⟩ := shape_some hAdh hdA
      have hcondH : (isHeadingTag eH.tag && headingKept eH.text) =
          (isHeadingTag eA.tag && headingKept eA.text) := by rw [htag, htext]
      by_cases hc : (isHeadingTag eA.tag && headingKept eA.text) = true
      · cases hr : resolveHeadingId dA k with
        | some s =>
          rw [processHeading_resolved cA sA hdA hc hr]
          rw [processHeading_resolved cA sA hdA hc hr] at hCC0
          dsimp only at hCC0
          have hids : ∀ j, j ≤ k → idAt dA j = idAt dh j := by
            intro j hj
            rcases Nat.lt_or_ge j k with h1 | h1
            · exact (hBB0 j h1).symm
            · have hjk : j = k := Nat.le_antisymm hj h1
              subst hjk
              exact hCC0.symm
          have hrH : resolveHeadingId dh k = some s := by
            rw [← resolve_congr hAdh hwA hids]
            exact hr
          rw [processHeading_resolved 0 sA hdH (by rw [hcondH]; exact hc) hrH]
          rw [htag, htext]
        | none =>
          rw [processHeading_synth cA sA hdA hc hr]
          rw [processHeading_synth cA sA hdA hc hr] at hCC0
          dsimp only at hCC0
          have hCC1 : idAt dh k = some (mkGenId "heading-" cA) := by
            rw [hCC0]
            exact idAt_setIdAt_self dA _ hdA
          have hrH : resolveHeadingId dh k = some (mkGenId "heading-" cA) :=
            resolve_self (by rw [hCC1]; exact truthyStr_some (mkGenId_ne_empty _ _))
          rw [processHeading_resolved 0 sA hdH (by rw [hcondH]; exact hc) hrH]
          rw [htag, htext]
      · rw [processHeading_not_kept cA sA hdA hc,
          processHeading_not_kept 0 sA hdH (by rw [hcondH]; exact hc)]

/-! ### Bridges from the decidable hypothesis checks -/

theorem wellFormedB_spec {d : Doc} (h : wellFormedB d = true) : WellFormedDoc d := by
  intro i e p he hp
  have hmem : (i, e) ∈ d.enum := List.mk_mem_enum_iff_getElem?.mpr he
  have h2 := List.all_eq_true.mp h (i, e) hmem
  have h3 : (match e.parent with
             | some q => decide (q < i)
             | none => true) = true := h2
  rw [hp] at h3
  exact of_decide_eq_true h3

theorem landmarksHaveIdsB_spec {d : Doc} (h : landmarksHaveIdsB d = true) :
    ∀ (i : Nat) (e : Elem), d[i]? = some e → isLandmarkSel e → (truthyStr e.id).isSome := by
  intro i e he hl
  have hmem : e ∈ d := List.mem_iff_getElem?.mpr ⟨i, he⟩
  have h2 := List.all_eq_true.mp h e hmem
  simp only [Bool.or_eq_true, Bool.not_eq_true'] at h2
  rcases h2 with h2 | h2
  · rw [hl] at h2; cases h2
  · exact h2

theorem isLandmarkSel_congr {e e' : Elem} (htag : e'.tag = e.tag) (hrole : e'.role = e.role) :
    isLandmarkSel e' = isLandmarkSel e := by
  unfold isLandmarkSel
  rw [htag, hrole]

theorem truthyStr_eq_some {o : Option String} {s : String} (h : truthyStr o = some s) :
    o = some s ∧ s ≠ "" := by
  cases o with
  | none => simp [truthyStr] at h
  | some t =>
    by_cases ht : t = ""
    · subst ht
      simp [truthyStr] at h
    · rw [truthyStr_some ht] at h
      cases h
      exact ⟨rfl, ht⟩

theorem landmarks_truthy_after_heading (d : Doc)
    (hl : ∀ (i : Nat) (e : Elem), d[i]? = some e → isLandmarkSel e → (truthyStr e.id).isSome) :
    ∀ (i : Nat) (e : Elem),
      (((List.range d.length).foldl processHeading (d, 0, [])).1)[i]? = some e →
      isLandmarkSel e → (truthyStr e.id).isSome := by
  intro i e he hsel
  have hshape := stA_shape d d.length
  obtain ⟨e0, he0, htag, _, hrole, _, _⟩ := shape_some hshape he
  have hsel0 : isLandmarkSel e0 = true := by
    rw [isLandmarkSel_congr htag hrole]
    exact hsel
  obtain ⟨s, hs⟩ := Option.isSome_iff_exists.mp (hl i e0 he0 hsel0)
  obtain ⟨hid0, hne⟩ := truthyStr_eq_some hs
  have hidd : idAt d i = some s := by rw [idAt_some_elem he0]; exact hid0
  have hidh : idAt ((List.range d.length).foldl processHeading (d, 0, [])).1 i = some s :=
    foldl_truthy (fun st i j s hs h => ph_truthy st i hs h) _ _ hne hidd
  have hei : e.id = some s := by rw [← idAt_some_elem he]; exact hidh
  rw [hei, truthyStr_some hne]
  rfl

theorem parse_idempotent (d : Doc) (hw : WellFormedDoc d)
    (hl : ∀ (i : Nat) (e : Elem), d[i]? = some e → isLandmarkSel e → (truthyStr e.id).isSome) :
    parsePageForMapping (parsePageForMapping d).1 = parsePageForMapping d := by
  have hldh0 := landmarks_truthy_after_heading d hl
  have hshape0 := stA_shape d d.length
  have hsim0 := heading_phase_sim d hw d.length le_rfl
  simp only [parsePageForMapping]
  rcases hst1 : (List.range d.length).foldl processHeading (d, 0, []) with ⟨dh, c1, s1⟩
  rw [hst1] at hldh0 hshape0 hsim0
  dsimp only at hldh0 hshape0 hsim0 ⊢
  have hlen : dh.length = d.length := shape_length hshape0
  have hLM1 : (List.range dh.length).foldl processLandmark (dh, c1, s1) =
      (dh, c1, s1 ++ ((List.range dh.length).foldl processLandmark (dh, 0, [])).2.2) :=
    foldl_pl_truthy _ dh hldh0 c1 s1
  rw [hLM1]
  dsimp only
  rw [hlen, hsim0]
  dsimp only
  have hLM2 : (List.range dh.length).foldl processLandmark (dh, 0, s1) =
      (dh, 0, s1 ++ ((List.range dh.length).foldl processLandmark (dh, 0, [])).2.2) :=
    foldl_pl_truthy _ dh hldh0 0 s1
  rw [← hlen, hLM2]

/-! ### Id uniqueness under synthesized ids -/

theorem noIdsB_spec {d : Doc} (h : noIdsB d = true) :
    ∀ (i : Nat) (e : Elem), d[i]? = some e → e.id = none := by
  intro i e he
  have hmem : e ∈ d := List.mem_iff_getElem?.mpr ⟨i, he⟩
  have h2 := List.all_eq_true.mp h e hmem
  exact Option.isNone_iff_eq_none.mp h2

theorem noNestedHeadingsB_spec {d : Doc} (h : noNestedHeadingsB d = true) :
    ∀ (i : Nat) (e : Elem), d[i]? = some e → isHeadingTag e.tag = true →
      ∀ j ∈ ancChain d d.length i, ∀ f : Elem, d[j]? = some f →
        isHeadingTag f.tag = false := by
  intro i e he hh j hj f hf
  have hmem : (i, e) ∈ d.enum := List.mk_mem_enum_iff_getElem?.mpr he
  have h2 := List.all_eq_true.mp h (i, e) hmem
  have h3 : (!(isHeadingTag e.tag) ||
      (ancChain d d.length i).all (fun j =>
        match d[j]? with
        | some a => !(isHeadingTag a.tag)
        | none => true)) = true := h2
  rw [hh] at h3
  simp only [Bool.not_true, Bool.false_or] at h3
  have h4 := List.all_eq_true.mp h3 j hj
  have h5 : (match d[j]? with
             | some a => !(isHeadingTag a.tag)
             | none => true) = true := h4
  rw [hf] at h5
  simpa using h5

theorem landmark_not_heading {e : Elem} (h : isLandmarkSel e = true) :
    isHeadingTag e.tag = false := by
  by_cases h1 : e.tag = "main"
  · rw [h1]; decide
  by_cases h2 : e.tag = "footer"
  · rw [h2]; decide
  by_cases h3 : e.tag = "nav"
  · rw [h3]; decide
  by_cases h4 : e.tag = "header"
  · rw [h4]; decide
  exfalso
  unfold isLandmarkSel at h
  simp only [Bool.or_eq_true, Bool.and_eq_true, decide_eq_true_eq] at h
  tauto

theorem parent_mem_ancChain {d : Doc} {i p : Nat} (hp : d[i]?.bind Elem.parent = some p)
    {fuel : Nat} (hf : 0 < fuel) : p ∈ ancChain d fuel i := by
  cases fuel with
  | zero => omega
  | succ f =>
    rw [ancChain_succ, hp]
    show p ∈ p :: ancChain d f p
    exact List.mem_cons_self _ _

theorem resolve_eq_none {d : Doc} {i : Nat} (h1 : idAt d i = none)
    (h2 : (d[i]?.bind Elem.parent).bind (idAt d) = none)
    (h3 : closestIdIdx d d.length i = none) : resolveHeadingId d i = none := by
  unfold resolveHeadingId
  rw [h1, h2, h3]
  rfl

theorem nodup_append_singleton {l : List String} {a : String} (h : l.Nodup) (ha : a ∉ l) :
    (l ++ [a]).Nodup := by
  rw [List.nodup_append]
  refine ⟨h, List.nodup_singleton a, ?_⟩
  intro x hx hx2
  rw [List.mem_singleton] at hx2
  subst hx2
  exact ha hx

theorem heading_phase_inv (d : Doc) (hw : WellFormedDoc d)
    (hids : ∀ (i : Nat) (e : Elem), d[i]? = some e → e.id = none)
    (hnest : ∀ (i : Nat) (e : Elem), d[i]? = some e → isHeadingTag e.tag = true →
      ∀ j ∈ ancChain d d.length i, ∀ f : Elem, d[j]? = some f → isHeadingTag f.tag = false) :
    ∀ k : Nat,
      (∀ j : Nat, idAt ((List.range k).foldl processHeading (d, 0, [])).1 j = none ∨
        (j < k ∧ (∃ e : Elem, d[j]? = some e ∧ isHeadingTag e.tag = true) ∧
          ∃ cv : Nat, cv < ((List.range k).foldl processHeading (d, 0, [])).2.1 ∧
            idAt ((List.range k).foldl processHeading (d, 0, [])).1 j =
              some (mkGenId "heading-" cv))) ∧
      (∀ s ∈ ((List.range k).foldl processHeading (d, 0, [])).2.2, ∃ cv : Nat,
        cv < ((List.range k).foldl processHeading (d, 0, [])).2.1 ∧
        s.id = mkGenId "heading-" cv) ∧
      ((((List.range k).foldl processHeading (d, 0, [])).2.2.map Section.id).Nodup) := by
  intro k
  induction k with
  | zero =>
    simp only [List.range_zero, List.foldl_nil]
    refine ⟨fun j => ?_, fun s hs => absurd hs (List.not_mem_nil s), List.nodup_nil⟩
    left
    cases hj : d[j]? with
    | none => unfold idAt; rw [hj]; rfl
    | some e => rw [idAt_some_elem hj]; exact hids j e hj
  | succ k ih =>
    obtain ⟨ihA, ihB, ihC⟩ := ih
    rcases hA : (List.range k).foldl processHeading (d, 0, []) with ⟨dA, cA, sA⟩
    rw [hA] at ihA ihB ihC
    dsimp only at ihA ihB ihC
    rw [stA_succ d k, hA]
    have hA_shape : shapeOf dA = shapeOf d := by
      have h1 := stA_shape d k
      rw [hA] at h1
      exact h1
    have hwA : WellFormedDoc dA := wellFormed_of_shape hA_shape.symm hw
    have hlenA : dA.length = d.length := shape_length hA_shape
    cases hdA : dA[k]? with
    | none =>
      rw [processHeading_none cA sA hdA]
      refine ⟨fun j => ?_, ihB, ihC⟩
      rcases ihA j with h | ⟨h1, h2, h3⟩
      · left; exact h
      · right; exact ⟨Nat.lt_succ_of_lt h1, h2, h3⟩
    | some eA =>
      obtain ⟨e0, he0, htag0, htext0, hrole0, haria0, hparent0⟩ := shape_some hA_shape hdA
      by_cases hc : (isHeadingTag eA.tag && headingKept eA.text) = true
      · have hhead : isHeadingTag eA.tag = true := (Bool.and_eq_true_iff.mp hc).1
        have hhead0 : isHeadingTag e0.tag = true := by rw [htag0]; exact hhead
        have hklen : k < d.length := by
          have := (List.getElem?_eq_some_iff.mp hdA).1
          omega
        have hself : idAt dA k = none := by
          rcases ihA k with h | ⟨h1, _, _⟩
          · exact h
          · omega
        have hpar : (dA[k]?.bind Elem.parent).bind (idAt dA) = none := by
          rw [hdA]
          show (eA.parent).bind (idAt dA) = none
          cases hp : eA.parent with
          | none => rfl
          | some p =>
            show idAt dA p = none
            rcases ihA p with h | ⟨h1, ⟨ep, hep, hheadp⟩, _⟩
            · exact h
            · exfalso
              have hbind : d[k]?.bind Elem.parent = some p := by
                rw [he0]
                show e0.parent = some p
                rw [hparent0, hp]
              have hpm : p ∈ ancChain d d.length k :=
                parent_mem_ancChain hbind (by omega)
              have hcontra := hnest k e0 he0 hhead0 p hpm ep hep
              rw [hheadp] at hcontra
              cases hcontra
        have hclo : closestIdIdx dA dA.length k = none := by
          apply closest_eq_none dA.length k hself
          intro j hj
          have hj' : j ∈ ancChain d d.length k := by
            rw [ancChain_shape hA_shape dA.length k, hlenA] at hj
            exact hj
          rcases ihA j with h | ⟨h1, ⟨ej, hej, hheadj⟩, _⟩
          · exact h
          · exfalso
            have hcontra := hnest k e0 he0 hhead0 j hj' ej hej
            rw [hheadj] at hcontra
            cases hcontra
        have hres : resolveHeadingId dA k = none := resolve_eq_none hself hpar hclo
        rw [processHeading_synth cA sA hdA hc hres]
        dsimp only
        refine ⟨fun j => ?_, fun s hs => ?_, ?_⟩
        · by_cases hj : j = k
          · subst hj
            right
            exact ⟨Nat.lt_succ_self j, ⟨e0, he0, hhead0⟩, cA, Nat.lt_succ_self cA,
              idAt_setIdAt_self dA _ hdA⟩
          · rw [idAt_setIdAt_ne dA _ hj]
            rcases ihA j with h | ⟨h1, h2, cv, hcv, h3⟩
            · left; exact h
            · right; exact ⟨Nat.lt_succ_of_lt h1, h2, cv, Nat.lt_succ_of_lt hcv, h3⟩
        · rw [List.mem_append] at hs
          rcases hs with hs | hs
          · obtain ⟨cv, hcv, h3⟩ := ihB s hs
            exact ⟨cv, Nat.lt_succ_of_lt hcv, h3⟩
          · rw [List.mem_singleton] at hs
            subst hs
            exact ⟨cA, Nat.lt_succ_self cA, rfl⟩
        · rw [List.map_append]
          apply nodup_append_singleton ihC
          intro hmem
          rw [List.mem_map] at hmem
          obtain ⟨s, hs, hsid⟩ := hmem
          obtain ⟨cv, hcv, h3⟩ := ihB s hs
          rw [h3] at hsid
          have := mkGenId_kind_inj "heading-" hsid
          omega
      · rw [processHeading_not_kept cA sA hdA hc]
        refine ⟨fun j => ?_, ihB, ihC⟩
        rcases ihA j with h | ⟨h1, h2, h3⟩
        · left; exact h
        · right; exact ⟨Nat.lt_succ_of_lt h1, h2, h3⟩

theorem foldl_range_succ {α : Type} (f : α → Nat → α) (a : α) (k : Nat) :
    (List.range (k + 1)).foldl f a = f ((List.range k).foldl f a) k := by
  rw [List.range_succ, List.foldl_append]
  rfl

theorem emitLandmark_cases (d : Doc) (c : Nat) (secs : List Section) (i : Nat) (e : Elem)
    (id : String) :
    emitLandmark d c secs i e id = (d, c, secs) ∨
    emitLandmark d c secs i e id =
      (d, c, secs ++ [⟨id, humanLabel d i e, landmarkRole e, none, "landmark"⟩]) := by
  unfold emitLandmark
  split
  · right; rfl
  · left; rfl

theorem landmark_phase_inv (d dh : Doc) (c1 : Nat) (s1 : List Section)
    (hshape : shapeOf dh = shapeOf d)
    (hA0 : ∀ j : Nat, idAt dh j = none ∨
      ((∃ e : Elem, d[j]? = some e ∧ isHeadingTag e.tag = true) ∧
        ∃ cv : Nat, cv < c1 ∧ idAt dh j = some (mkGenId "heading-" cv)))
    (hB0 : ∀ s ∈ s1, ∃ cv : Nat, cv < c1 ∧ s.id = mkGenId "heading-" cv)
    (hC0 : (s1.map Section.id).Nodup) :
    ∀ m : Nat,
      (∀ j : Nat, idAt ((List.range m).foldl processLandmark (dh, c1, s1)).1 j = none ∨
        ((∃ e : Elem, d[j]? = some e ∧ isHeadingTag e.tag = true) ∧
          ∃ cv : Nat, cv < ((List.range m).foldl processLandmark (dh, c1, s1)).2.1 ∧
            idAt ((List.range m).foldl processLandmark (dh, c1, s1)).1 j =
              some (mkGenId "heading-" cv)) ∨
        (j < m ∧ ∃ cv : Nat, cv < ((List.range m).foldl processLandmark (dh, c1, s1)).2.1 ∧
          idAt ((List.range m).foldl processLandmark (dh, c1, s1)).1 j =
            some (mkGenId "landmark-" cv))) ∧
      (∀ s ∈ ((List.range m).foldl processLandmark (dh, c1, s1)).2.2,
        ∃ (kind : String) (cv : Nat), (kind = "heading-" ∨ kind = "landmark-") ∧
          cv < ((List.range m).foldl processLandmark (dh, c1, s1)).2.1 ∧
          s.id = mkGenId kind cv) ∧
      ((((List.range m).foldl processLandmark (dh, c1, s1)).2.2.map Section.id).Nodup) := by
  intro m
  induction m with
  | zero =>
    simp only [List.range_zero, List.foldl_nil]
    refine ⟨fun j => ?_, fun s hs => ?_, hC0⟩
    · rcases hA0 j with h | ⟨h1, cv, hcv, h2⟩
      · left; exact h
      · right; left; exact ⟨h1, cv, hcv, h2⟩
    · obtain ⟨cv, hcv, h2⟩ := hB0 s hs
      exact ⟨"heading-", cv, Or.inl rfl, hcv, h2⟩
  | succ m ih =>
    obtain ⟨ihA, ihB, ihC⟩ := ih
    rcases hB : (List.range m).foldl processLandmark (dh, c1, s1) with ⟨dB, cB, sB⟩
    rw [hB] at ihA ihB ihC
    dsimp only at ihA ihB ihC
    rw [foldl_range_succ processLandmark (dh, c1, s1) m, hB]
    have hB_shape : shapeOf dB = shapeOf d := by
      have h1 : shapeOf ((List.range m).foldl processLandmark (dh, c1, s1)).1 = shapeOf dh :=
        foldl_shape pl_shape _ _
      rw [hB] at h1
      exact h1.trans hshape
    cases hdB : dB[m]? with
    | none =>
      rw [processLandmark_none cB sB hdB]
      refine ⟨fun j => ?_, ihB, ihC⟩
      rcases ihA j with h | h | ⟨h1, h2⟩
      · left; exact h
      · right; left; exact h
      · right; right; exact ⟨Nat.lt_succ_of_lt h1, h2⟩
    | some eB =>
      obtain ⟨e0, he0, htag0, _, _, _, _⟩ := shape_some hB_shape hdB
      by_cases hl : isLandmarkSel eB = true
      · have hnothead : isHeadingTag e0.tag = false := by
          rw [htag0]
          exact landmark_not_heading hl
        cases ht : truthyStr eB.id with
        | some s =>
          exfalso
          have hself : idAt dB m = eB.id := idAt_some_elem hdB
          rcases ihA m with h | ⟨⟨e, he, hh⟩, _, _, h2⟩ | ⟨h1, _⟩
          · rw [hself] at h
            rw [h] at ht
            cases ht
          · rw [he0] at he
            cases he
            rw [hh] at hnothead
            cases hnothead
          · omega
        | none =>
          rw [processLandmark_synth cB sB hdB hl ht]
          rcases emitLandmark_cases (setIdAt dB m (mkGenId "landmark-" cB)) (cB + 1) sB m eB
              (mkGenId "landmark-" cB) with hcase | hcase <;> rw [hcase] <;>
            refine ⟨fun j => ?_, fun s hs => ?_, ?_⟩
          · by_cases hj : j = m
            · subst hj
              right; right
              exact ⟨Nat.lt_succ_self j, cB, Nat.lt_succ_self cB,
                idAt_setIdAt_self dB _ hdB⟩
            · rw [idAt_setIdAt_ne dB _ hj]
              rcases ihA j with h | ⟨h1, cv, hcv, h2⟩ | ⟨h1, cv, hcv, h2⟩
              · left; exact h
              · right; left; exact ⟨h1, cv, Nat.lt_succ_of_lt hcv, h2⟩
              · right; right; exact ⟨Nat.lt_succ_of_lt h1, cv, Nat.lt_succ_of_lt hcv, h2⟩
          · obtain ⟨kind, cv, hkind, hcv, h2⟩ := ihB s hs
            exact ⟨kind, cv, hkind, Nat.lt_succ_of_lt hcv, h2⟩
          · exact ihC
          · by_cases hj : j = m
            · subst hj
              right; right
              exact ⟨Nat.lt_succ_self j, cB, Nat.lt_succ_self cB,
                idAt_setIdAt_self dB _ hdB⟩
            · rw [idAt_setIdAt_ne dB _ hj]
              rcases ihA j with h | ⟨h1, cv, hcv, h2⟩ | ⟨h1, cv, hcv, h2⟩
              · left; exact h
              · right; left; exact ⟨h1, cv, Nat.lt_succ_of_lt hcv, h2⟩
              · right; right; exact ⟨Nat.lt_succ_of_lt h1, cv, Nat.lt_succ_of_lt hcv, h2⟩
          · rw [List.mem_append] at hs
            rcases hs with hs | hs
            · obtain ⟨kind, cv, hkind, hcv, h2⟩ := ihB s hs
              exact ⟨kind, cv, hkind, Nat.lt_succ_of_lt hcv, h2⟩
            · rw [List.mem_singleton] at hs
              subst hs
              exact ⟨"landmark-", cB, Or.inr rfl, Nat.lt_succ_self cB, rfl⟩
          · rw [List.map_append]
            apply nodup_append_singleton ihC
            intro hmem
            rw [List.mem_map] at hmem
            obtain ⟨s, hs, hsid⟩ := hmem
            obtain ⟨kind, cv, hkind, hcv, h2⟩ := ihB s hs
            rw [h2] at hsid
            rcases hkind with hk | hk <;> subst hk
            · exact mkGenId_heading_ne_landmark cv cB hsid
            · have := mkGenId_kind_inj "landmark-" hsid
              omega
      · rw [processLandmark_not_sel cB sB hdB hl]
        refine ⟨fun j => ?_, ihB, ihC⟩
        rcases ihA j with h | h | ⟨h1, h2⟩
        · left; exact h
        · right; left; exact h
        · right; right; exact ⟨Nat.lt_succ_of_lt h1, h2⟩

theorem parse_nodup (d : Doc) (hw : WellFormedDoc d)
    (hids : ∀ (i : Nat) (e : Elem), d[i]? = some e → e.id = none)
    (hnest : ∀ (i : Nat) (e : Elem), d[i]? = some e → isHeadingTag e.tag = true →
      ∀ j ∈ ancChain d d.length i, ∀ f : Elem, d[j]? = some f → isHeadingTag f.tag = false) :
    (((parsePageForMapping d).2).map Section.id).Nodup := by
  have hInv := heading_phase_inv d hw hids hnest d.length
  have hshape0 := stA_shape d d.length
  simp only [parsePageForMapping]
  rcases hst1 : (List.range d.length).foldl processHeading (d, 0, []) with ⟨dh, c1, s1⟩
  rw [hst1] at hInv hshape0
  dsimp only at hInv hshape0 ⊢
  obtain ⟨hA0, hB0, hC0⟩ := hInv
  have hA0' : ∀ j : Nat, idAt dh j = none ∨
      ((∃ e : Elem, d[j]? = some e ∧ isHeadingTag e.tag = true) ∧
        ∃ cv : Nat, cv < c1 ∧ idAt dh j = some (mkGenId "heading-" cv)) :=
    fun j => (hA0 j).imp id (fun h => ⟨h.2.1, h.2.2⟩)
  exact (landmark_phase_inv d dh c1 s1 hshape0 hA0' hB0 hC0 dh.length).2.2

/-! ### The audio tick cursor never moves backwards -/

theorem scanAux_none {segs : List Segment} {t : ℚ} {cursor : Nat} {i : Nat} (f : Nat)
    (h : segs[i]? = none) : scanForSectionAux segs t cursor (f + 1) i = cursor := by
  have h0 : scanForSectionAux segs t cursor (f + 1) i =
      (match segs[i]? with
       | none => cursor
       | some s =>
         let inThis := timeLe s.time t &&
           (match segs[i + 1]? with
            | none => true
            | some nxt => timeGt nxt.time t)
         if inThis && i ≠ cursor then i
         else scanForSectionAux segs t cursor f (i + 1)) := rfl
  rw [h0, h]

theorem scanAux_some {segs : List Segment} {t : ℚ} {cursor : Nat} {i : Nat} {s : Segment}
    (f : Nat) (h : segs[i]? = some s) :
    scanForSectionAux segs t cursor (f + 1) i =
      (if (timeLe s.time t &&
            (match segs[i + 1]? with
             | none => true
             | some nxt => timeGt nxt.time t)) && i ≠ cursor then i
       else scanForSectionAux segs t cursor f (i + 1)) := by
  have h0 : scanForSectionAux segs t cursor (f + 1) i =
      (match segs[i]? with
       | none => cursor
       | some s =>
         let inThis := timeLe s.time t &&
           (match segs[i + 1]? with
            | none => true
            | some nxt => timeGt nxt.time t)
         if inThis && i ≠ cursor then i
         else scanForSectionAux segs t cursor f (i + 1)) := rfl
  rw [h0, h]

theorem scanForSectionAux_mono (segs : List Segment) (t : ℚ) (cursor : Nat) :
    ∀ (fuel i : Nat), cursor ≤ i → cursor ≤ scanForSectionAux segs t cursor fuel i := by
  intro fuel
  induction fuel with
  | zero => intro i _; exact le_rfl
  | succ f ih =>
    intro i h
    cases hs : segs[i]? with
    | none =>
      rw [scanAux_none f hs]
    | some s =>
      rw [scanAux_some f hs]
      split
      · exact h
      · exact ih (i + 1) (Nat.le_succ_of_le h)

theorem handleAudioTimeUpdate_mono (segs : List Segment) (cursor : Nat) (t : ℚ) :
    cursor ≤ handleAudioTimeUpdate segs cursor t := by
  unfold handleAudioTimeUpdate scanForSection
  split
  · exact le_rfl
  · exact scanForSectionAux_mono segs t cursor _ cursor le_rfl

/-! ### Navigation contract -/

theorem getElementById_spec_none {d : Doc} {sid : String}
    (h : getElementById d sid = none) : ∀ i : Nat, idAt d i ≠ some sid := by
  intro i hi
  have hfound := List.findSome?_eq_none_iff.mp h i
  have hlt : i < d.length := by
    unfold idAt at hi
    cases hd : d[i]? with
    | none => rw [hd] at hi; cases hi
    | some e => exact (List.getElem?_eq_some_iff.mp hd).1
  have h2 := hfound (List.mem_range.mpr hlt)
  rw [if_pos hi] at h2
  cases h2

theorem getElementById_spec_some {d : Doc} {sid : String} {j : Nat}
    (h : getElementById d sid = some j) : idAt d j = some sid := by
  obtain ⟨i, _, hf⟩ := List.exists_of_findSome?_eq_some h
  by_cases hi : idAt d i = some sid
  · rw [if_pos hi] at hf
    cases hf
    exact hi
  · rw [if_neg hi] at hf
    cases hf

/-! ### The extracted section text contains no line break -/

theorem collapseWSAux_no_nl : ∀ (b : Bool) (l : List Char), '\n' ∉ collapseWSAux b l := by
  intro b l
  induction l generalizing b with
  | nil => intro h; cases h
  | cons c cs ih =>
    unfold collapseWSAux
    by_cases hw : c.isWhitespace
    · rw [if_pos hw]
      by_cases hb : b
      · rw [if_pos hb]; exact ih true
      · rw [if_neg hb]
        intro hmem
        rcases List.mem_cons.mp hmem with h | h
        · cases h
        · exact ih true h
    · rw [if_neg hw]
      intro hmem
      rcases List.mem_cons.mp hmem with h | h
      · rw [← h] at hw
        exact hw (by decide)
      · exact ih false h

theorem collapseBlank_no_nl : ∀ (fuel : Nat) (l : List Char), '\n' ∉ l →
    collapseBlank fuel l = l := by
  intro fuel
  induction fuel with
  | zero => intro l _; rfl
  | succ f ih =>
    intro l hl
    cases l with
    | nil => rfl
    | cons c cs =>
      have hc : ¬(c = '\n') := fun h => hl (h ▸ List.mem_cons_self c cs)
      show (if c = '\n' then _ else c :: collapseBlank f cs) = c :: cs
      rw [if_neg hc, ih cs (fun h => hl (List.mem_cons_of_mem c h))]

theorem mem_jsTrim {s : String} {c : Char} (h : c ∈ (jsTrim s).data) : c ∈ s.data := by
  have h1 : c ∈ ((s.data.dropWhile Char.isWhitespace).reverse.dropWhile
      Char.isWhitespace).reverse := h
  rw [List.mem_reverse] at h1
  have h2 : c ∈ (s.data.dropWhile Char.isWhitespace).reverse :=
    (List.dropWhile_sublist _).subset h1
  rw [List.mem_reverse] at h2
  exact (List.dropWhile_sublist _).subset h2

theorem cleanSectionText_no_nl (s : String) : '\n' ∉ (cleanSectionText s).data := by
  intro h
  unfold cleanSectionText at h
  have h1 := mem_jsTrim h
  rw [collapseBlank_no_nl _ _ (collapseWSAux_no_nl false s.data)] at h1
  exact collapseWSAux_no_nl false s.data h1

theorem extractSectionText_no_nl (el : DNode) (sibs : List DNode) :
    '\n' ∉ (extractSectionText el sibs).data := by
  unfold extractSectionText
  exact cleanSectionText_no_nl _

/-! ### Default result of the time parser -/

theorem parseTimeToSeconds_default (s : String)
    (h2 : (splitOnChar ':' s).length ≠ 2) (h3 : (splitOnChar ':' s).length ≠ 3) :
    parseTimeToSeconds s = some 0 := by
  unfold parseTimeToSeconds
  by_cases he : s = ""
  · rw [if_pos he]
  · rw [if_neg he]
    rcases hl : (splitOnChar ':' s).map jsParseInt with _ | ⟨a, _ | ⟨b, _ | ⟨c, _ | ⟨e4, rest⟩⟩⟩⟩
    · rfl
    · rfl
    · exfalso
      have hlen := congrArg List.length hl
      rw [List.length_map] at hlen
      simp at hlen
      exact h2 hlen
    · exfalso
      have hlen := congrArg List.length hl
      rw [List.length_map] at hlen
      simp at hlen
      exact h3 hlen
    · rfl

/-! ### Geometry engine facts -/

theorem processImage_below (vw vh : ℚ) (img : ImageInput) (h : vh ≤ img.rect.top) :
    processImage vw vh img = none := by
  have hiv : isInViewport vw vh img.rect = false := by
    unfold isInViewport
    have hd : decide (img.rect.top < vh) = false := decide_eq_false (not_lt.mpr h)
    rw [hd]
    simp
  simp only [processImage]
  rw [hiv]
  rfl

theorem visibilityPercentage_zero (vw vh : ℚ) (r : Rect) (h : ¬(0 < r.width * r.height)) :
    visibilityPercentage vw vh r = 0 := by
  simp only [visibilityPercentage]
  rw [if_neg h]

end Sherpa


namespace Sherpa

/-! ## Claim theorems -/

/-- Claim C1, counterexample: the claim that the ids of the Sections emitted
by parsePageForMapping are pairwise distinct within one pass fails on the
code. Two headings without own ids that share a parent carrying the id x
both resolve to x through the parent fallback, so the pass emits the id x
twice. -/
theorem C1_counterexample :
    (parsePageForMapping
      [⟨"div", some "x", none, none, "", none⟩,
       ⟨"h2", none, none, none, "Alpha", some 0⟩,
       ⟨"h2", none, none, none, "Beta", some 0⟩]).2.map Section.id = ["x", "x"] ∧
    ¬((parsePageForMapping
      [⟨"div", some "x", none, none, "", none⟩,
       ⟨"h2", none, none, none, "Alpha", some 0⟩,
       ⟨"h2", none, none, none, "Beta", some 0⟩]).2.map Section.id).Nodup := by
  constructor
  · decide
  · decide

/-- Claim C1, amended: within one mapping pass the emitted Section ids are
pairwise distinct provided every id is freshly synthesized, that is, on a
well-formed document in which no element carries a pre-existing id
attribute and no heading element sits inside another heading element; ids
resolved through the parent or ancestor fallback chain can repeat. -/
theorem C1_amended_unique_ids (d : Doc) (hw : wellFormedB d = true)
    (hids : noIdsB d = true) (hnest : noNestedHeadingsB d = true) :
    (((parsePageForMapping d).2).map Section.id).Nodup :=
  parse_nodup d (wellFormedB_spec hw) (noIdsB_spec hids) (noNestedHeadingsB_spec hnest)

/-- Witness for C1: the amended theorem applied to a concrete document with
one landmark and two headings, all without pre-existing ids. -/
theorem C1_witness :
    (((parsePageForMapping
      [⟨"h2", none, none, none, "Alpha", none⟩,
       ⟨"main", none, none, some "Stuff", "", none⟩,
       ⟨"h2", none, none, none, "Beta", some 1⟩]).2).map Section.id).Nodup :=
  C1_amended_unique_ids _ (by decide) (by decide) (by decide)

/-- Claim C2: with headings at document-top offsets 0, 600, 1200 and 2000,
scrollY 500 and viewportHeight 800, the viewport locator discards the
headings outside the window from 300 to 1500 and selects among the
survivors the heading minimizing the distance to the viewport top, that is
the heading at offset 600 with index 1, and the selection cascade of
extractCurrentSectionContent therefore reports that heading. -/
theorem C2_viewport_selection :
    findBestHeading [0, 600, 1200, 2000] 500 800 = some 1 ∧
    locateCurrentSection [0, 600, 1200, 2000] 500 800 true = .heading 1 := by
  have h1 : findBestHeading [0, 600, 1200, 2000] 500 800 = some 1 := by
    norm_num [findBestHeading, List.enum, List.enumFrom]
  refine ⟨h1, ?_⟩
  unfold locateCurrentSection
  rw [h1]

/-- Claim C3, counterexample: the claim that every malformed playback-time
string resolves to 0 seconds fails on the code: a two-part string with
non-numeric parts such as ab:cd takes the MM:SS branch, where parseInt
yields NaN (modelled as none) and the NaN propagates; the result is not 0. -/
theorem C3_counterexample :
    parseTimeToSeconds "ab:cd" = none ∧ parseTimeToSeconds "ab:cd" ≠ some 0 := by
  constructor
  · decide
  · decide

/-- Claim C3, amended: parseTimeToSeconds returns 90 for 01:30 and 65 for
00:01:05, and returns 0 exactly for the strings whose colon split has
neither two nor three parts, such as garbage; two-part or three-part
strings with non-numeric parts produce NaN instead. -/
theorem C3_amended_parse_times :
    parseTimeToSeconds "01:30" = some 90 ∧
    parseTimeToSeconds "00:01:05" = some 65 ∧
    parseTimeToSeconds "garbage" = some 0 ∧
    (∀ s : String, (splitOnChar ':' s).length ≠ 2 → (splitOnChar ':' s).length ≠ 3 →
      parseTimeToSeconds s = some 0) :=
  ⟨by decide, by decide, by decide, parseTimeToSeconds_default⟩

/-- Witness for C3: the default branch of the amended theorem applied to a
four-part string. -/
theorem C3_witness : parseTimeToSeconds "1:2:3:4" = some 0 :=
  C3_amended_parse_times.2.2.2 "1:2:3:4" (by decide) (by decide)

/-- Claim C4: from the transcript payload with Intro at 00:00 and Results at
01:30, the segment construction parses and sorts the two segments, and the
playback-tick handler resolves currentTime 89 to the segment named Intro
and currentTime 95 to the segment named Results. -/
theorem C4_active_segment :
    mkSegments [] [("Intro", "00:00"), ("Results", "01:30")] =
      [⟨"Intro", some 0, none⟩, ⟨"Results", some 90, none⟩] ∧
    ((mkSegments [] [("Intro", "00:00"), ("Results", "01:30")])[
        handleAudioTimeUpdate (mkSegments [] [("Intro", "00:00"), ("Results", "01:30")])
          0 89]?).map Segment.name = some "Intro" ∧
    ((mkSegments [] [("Intro", "00:00"), ("Results", "01:30")])[
        handleAudioTimeUpdate (mkSegments [] [("Intro", "00:00"), ("Results", "01:30")])
          0 95]?).map Segment.name = some "Results" := by
  have hseg : mkSegments [] [("Intro", "00:00"), ("Results", "01:30")] =
      [⟨"Intro", some 0, none⟩, ⟨"Results", some 90, none⟩] := by decide
  have h89 : handleAudioTimeUpdate [⟨"Intro", some 0, none⟩, ⟨"Results", some 90, none⟩]
      0 89 = 0 := by
    norm_num [handleAudioTimeUpdate, scanForSection, scanForSectionAux, timeLe, timeGt]
  have h95 : handleAudioTimeUpdate [⟨"Intro", some 0, none⟩, ⟨"Results", some 90, none⟩]
      0 95 = 1 := by
    norm_num [handleAudioTimeUpdate, scanForSection, scanForSectionAux, timeLe, timeGt]
  refine ⟨hseg, ?_, ?_⟩
  · rw [hseg, h89]
    rfl
  · rw [hseg, h95]
    rfl

/-- Claim C5: the image pipeline excludes every image whose bounding
rectangle lies entirely below the viewport height; an image of width 100
and height 200 whose top half overlaps the bottom edge of a 1000 by 800
viewport is reported with visibilityPercentage 50; and the visibility
percentage is 0 for an image of zero rendered area. -/
theorem C5_visibility :
    (∀ (vw vh : ℚ) (img : ImageInput), vh ≤ img.rect.top →
      processImage vw vh img = none) ∧
    processImage 1000 800 ⟨⟨0, 700, 100, 200⟩, "https://example.com/photo.jpg", none, "fig"⟩ =
      some ⟨"https://example.com/photo.jpg", "fig", 100, 200, 0, 700, 50⟩ ∧
    (∀ (vw vh : ℚ) (r : Rect), ¬(0 < r.width * r.height) →
      visibilityPercentage vw vh r = 0) := by
  refine ⟨processImage_below, ?_, visibilityPercentage_zero⟩
  norm_num [processImage, isInViewport, visibilityPercentage, jsRound, resolveSrc]
  decide

/-- Witness for C5: the exclusion branch at an image starting exactly at the
viewport bottom, and the zero-area branch at a zero-width rectangle. -/
theorem C5_witness :
    processImage 1000 800 ⟨⟨0, 800, 100, 200⟩, "https://example.com/x.jpg", none, ""⟩ =
      none ∧
    visibilityPercentage 1000 800 ⟨0, 0, 0, 50⟩ = 0 :=
  ⟨C5_visibility.1 1000 800 _ le_rfl, C5_visibility.2.2 1000 800 _ (by simp)⟩

/-- Claim C6, counterexample: rerunning parsePageForMapping on the unchanged
result of a first run does not return the same ids. In the document div
with id g containing an id-less main containing an id-less heading, the
first pass resolves the heading id to g through the ancestor chain and then
writes a synthesized id onto the main landmark; on the second pass the
heading resolves to the freshly written landmark id of its parent instead. -/
theorem C6_counterexample :
    (parsePageForMapping
      [⟨"div", some "g", none, none, "", none⟩,
       ⟨"main", none, none, some "Stuff", "", some 0⟩,
       ⟨"h2", none, none, none, "Hello", some 1⟩]).2.map Section.id =
      ["g", "ctx-nav-target-landmark-0"] ∧
    (parsePageForMapping (parsePageForMapping
      [⟨"div", some "g", none, none, "", none⟩,
       ⟨"main", none, none, some "Stuff", "", some 0⟩,
       ⟨"h2", none, none, none, "Hello", some 1⟩]).1).2.map Section.id =
      ["ctx-nav-target-landmark-0", "ctx-nav-target-landmark-0"] ∧
    (parsePageForMapping (parsePageForMapping
      [⟨"div", some "g", none, none, "", none⟩,
       ⟨"main", none, none, some "Stuff", "", some 0⟩,
       ⟨"h2", none, none, none, "Hello", some 1⟩]).1).2.map Section.id ≠
    (parsePageForMapping
      [⟨"div", some "g", none, none, "", none⟩,
       ⟨"main", none, none, some "Stuff", "", some 0⟩,
       ⟨"h2", none, none, none, "Hello", some 1⟩]).2.map Section.id := by
  refine ⟨by decide, by decide, by decide⟩

/-- Claim C6, amended: the mapping pass never removes or overwrites a
non-empty id attribute, and rerunning parsePageForMapping on the unchanged
document returns exactly the same result provided that, in addition to
well-formedness, every element matched by the landmark selector already
carries a non-empty id; without that proviso the first pass can write a
synthesized id onto a landmark and change the parent fallback of a heading
inside it on the second pass. -/
theorem C6_amended_idempotent (d : Doc) (hw : wellFormedB d = true)
    (hl : landmarksHaveIdsB d = true) :
    (∀ (j : Nat) (s : String), s ≠ "" → idAt d j = some s →
      idAt (parsePageForMapping d).1 j = some s) ∧
    parsePageForMapping (parsePageForMapping d).1 = parsePageForMapping d := by
  constructor
  · intro j s hs hid
    simp only [parsePageForMapping]
    exact foldl_truthy (fun st i j s hs h => pl_truthy st i hs h) _ _ hs
      (foldl_truthy (fun st i j s hs h => ph_truthy st i hs h) _ _ hs hid)
  · exact parse_idempotent d (wellFormedB_spec hw) (landmarksHaveIdsB_spec hl)

/-- Witness for C6: the amended theorem applied to a document whose landmark
already carries an id; the second run returns the same result and the
pre-existing heading ancestor id survives the pass. -/
theorem C6_witness :
    parsePageForMapping (parsePageForMapping
      [⟨"div", some "g", none, none, "", none⟩,
       ⟨"main", some "m", none, some "Stuff", "", some 0⟩,
       ⟨"h2", none, none, none, "Hello", some 1⟩]).1 =
    parsePageForMapping
      [⟨"div", some "g", none, none, "", none⟩,
       ⟨"main", some "m", none, some "Stuff", "", some 0⟩,
       ⟨"h2", none, none, none, "Hello", some 1⟩] ∧
    idAt (parsePageForMapping
      [⟨"div", some "g", none, none, "", none⟩,
       ⟨"main", some "m", none, some "Stuff", "", some 0⟩,
       ⟨"h2", none, none, none, "Hello", some 1⟩]).1 0 = some "g" :=
  ⟨(C6_amended_idempotent _ (by decide) (by decide)).2,
   (C6_amended_idempotent _ (by decide) (by decide)).1 0 "g" (by decide) (by decide)⟩

/-- Claim C7: navigate_to_section succeeds with an ok response and a scroll
command aligning the element top to the viewport top (block start, behavior
smooth) exactly when an element with the requested id exists; when the id
is absent the thrown error Section not found followed by the id is caught
by the message listener and surfaced as an error response. -/
theorem C7_navigate_contract (d : Doc) (sid : String) :
    ((∃ i : Nat, idAt d i = some sid) →
      ∃ cmd : ScrollCommand, handleNavigateMessage d sid = .ok cmd ∧
        cmd.block = "start" ∧ cmd.behavior = "smooth" ∧
        idAt d cmd.targetIndex = some sid) ∧
    (¬(∃ i : Nat, idAt d i = some sid) →
      handleNavigateMessage d sid = .err ("Section not found: " ++ sid)) := by
  constructor
  · intro hex
    obtain ⟨i, hi⟩ := hex
    cases hg : getElementById d sid with
    | none => exact absurd hi (getElementById_spec_none hg i)
    | some j =>
      refine ⟨⟨j, "smooth", "start"⟩, ?_, rfl, rfl, getElementById_spec_some hg⟩
      unfold handleNavigateMessage navigateToSection
      rw [hg]
  · intro hno
    cases hg : getElementById d sid with
    | none =>
      unfold handleNavigateMessage navigateToSection
      rw [hg]
    | some j => exact absurd ⟨j, getElementById_spec_some hg⟩ hno

/-- Witness for C7: a present id yields the ok response with the scroll
command, an absent id yields the caught error response. -/
theorem C7_witness :
    (∃ cmd : ScrollCommand,
      handleNavigateMessage [⟨"div", some "intro", none, none, "", none⟩] "intro" =
        .ok cmd ∧ cmd.block = "start" ∧ cmd.behavior = "smooth" ∧
        idAt [⟨"div", some "intro", none, none, "", none⟩] cmd.targetIndex =
          some "intro") ∧
    handleNavigateMessage [⟨"div", some "intro", none, none, "", none⟩] "missing" =
      .err ("Section not found: missing") :=
  ⟨(C7_navigate_contract _ "intro").1 ⟨0, by decide⟩,
   (C7_navigate_contract _ "missing").2
     (fun h => h.elim (fun i hi => getElementById_spec_none (by decide) i hi))⟩

/-- Claim C8: across playback-clock ticks the synchronizer cursor never
decreases, since every tick scans forward from the last cursor, and the
cursor is rewound by the play handler only on an explicit restart from
playback time zero. -/
theorem C8_cursor_monotone :
    (∀ (segs : List Segment) (cursor : Nat) (t : ℚ),
      cursor ≤ handleAudioTimeUpdate segs cursor t) ∧
    (∀ (cursor : Nat) (t : ℚ), t ≠ 0 → resetCursorOnPlay cursor t = cursor) ∧
    (∀ cursor : Nat, resetCursorOnPlay cursor 0 = 0) := by
  refine ⟨handleAudioTimeUpdate_mono, ?_, ?_⟩
  · intro cursor t ht
    unfold resetCursorOnPlay
    rw [if_neg ht]
  · intro cursor
    unfold resetCursorOnPlay
    rw [if_pos rfl]

/-- Witness for C8: the tick at playback time 1 keeps the cursor at or above
5, and the reset keeps the cursor when playback resumes away from zero. -/
theorem C8_witness :
    5 ≤ handleAudioTimeUpdate [⟨"Intro", some 0, none⟩] 5 1 ∧
    resetCursorOnPlay 5 1 = 5 :=
  ⟨C8_cursor_monotone.1 _ 5 1, C8_cursor_monotone.2.1 5 1 one_ne_zero⟩

/-- Claim C9, counterexample: the claim that landmarks resolve their ids
through the same fallback chain as headings with a separate counter fails
on the code. A synthesized heading id consumes counter value 0, and the
landmark then synthesizes with counter value 1, showing one shared counter;
and a landmark without an own id whose parent carries the id p synthesizes
a fresh id instead of inheriting p, showing that the parent and ancestor
fallbacks are not applied to landmarks. -/
theorem C9_counterexample :
    (parsePageForMapping
      [⟨"h2", none, none, none, "Alpha", none⟩,
       ⟨"main", none, none, some "Stuff", "", none⟩]).2.map Section.id =
      ["ctx-nav-target-heading-0", "ctx-nav-target-landmark-1"] ∧
    (parsePageForMapping
      [⟨"div", some "p", none, none, "", none⟩,
       ⟨"main", none, none, some "Stuff", "", some 0⟩]).2.map Section.id =
      ["ctx-nav-target-landmark-0"] := by
  constructor
  · decide
  · decide

/-- Claim C9, amended: a landmark id is taken from the landmark element
itself when truthy and otherwise synthesized from the counter shared with
the headings; the parent and ancestor id fallbacks are never consulted for
landmarks: whatever non-empty id the parent of the landmark carries, the
emitted landmark id is the synthesized one, and a preceding synthesized
heading id shifts the landmark counter value. -/
theorem C9_amended_landmark_id (pid : String) (hp : pid ≠ "") :
    truthyStr (some pid) = some pid ∧
    (parsePageForMapping
      [⟨"div", some pid, none, none, "", none⟩,
       ⟨"main", none, none, some "Stuff", "", some 0⟩]).2.map Section.id =
      ["ctx-nav-target-landmark-0"] ∧
    (parsePageForMapping
      [⟨"h2", none, none, none, "Alpha", none⟩,
       ⟨"main", none, none, some "Stuff", "", some 0⟩]).2.map Section.id =
      ["ctx-nav-target-heading-0", "ctx-nav-target-landmark-1"] := by
  refine ⟨truthyStr_some hp, rfl, by decide⟩

/-- Witness for C9: the amended theorem at the concrete parent id p. -/
theorem C9_witness :
    truthyStr (some "p") = some "p" ∧
    (parsePageForMapping
      [⟨"div", some "p", none, none, "", none⟩,
       ⟨"main", none, none, some "Stuff", "", some 0⟩]).2.map Section.id =
      ["ctx-nav-target-landmark-0"] :=
  ⟨(C9_amended_landmark_id "p" (by decide)).1,
   (C9_amended_landmark_id "p" (by decide)).2.1⟩

/-- Claim C10, counterexample: the claim that block boundaries remain as
line breaks in the returned section content fails on the code. For a main
element with two paragraphs the walker does insert line-break markers, but
the first cleanup replaces every whitespace run, line breaks included, with
a single space, so the returned content is Hello World with no line break
at the block boundary. -/
theorem C10_counterexample :
    extractSectionText
      (.elem "main" [.elem "p" [.text "Hello"], .elem "p" [.text "World"]]) [] =
      "Hello World" ∧
    '\n' ∉ (extractSectionText
      (.elem "main" [.elem "p" [.text "Hello"], .elem "p" [.text "World"]]) []).data := by
  constructor
  · decide
  · decide

/-- Claim C10, amended: for landmark and body targets the walker appends a
line-break marker when it visits a block-level element, but the
normalization collapses every whitespace run, line breaks included, to one
space before the blank-line collapse runs, so the returned content of
extractSectionText never contains a line break. -/
theorem C10_amended_no_line_breaks :
    (∀ (el : DNode) (sibs : List DNode), '\n' ∉ (extractSectionText el sibs).data) ∧
    (∀ (acc : String) (tag : String) (cs : List DNode), rejectedTag tag = false →
      blockTag tag = true → walkNode acc (.elem tag cs) = walkList (acc ++ "\n") cs) := by
  refine ⟨extractSectionText_no_nl, ?_⟩
  intro acc tag cs hrej hblk
  unfold walkNode
  rw [hrej, hblk]
  simp

/-- Witness for C10: no line break in a concrete extraction, and the
line-break marker insertion at a paragraph element. -/
theorem C10_witness :
    '\n' ∉ (extractSectionText (.elem "div" [.text "Hi there"]) []).data ∧
    walkNode "" (.elem "p" [.text "Hello"]) = walkList ("" ++ "\n") [.text "Hello"] :=
  ⟨C10_amended_no_line_breaks.1 _ _,
   C10_amended_no_line_breaks.2 "" "p" [.text "Hello"] (by decide) (by decide)⟩

end Sherpa
